import Mathlib

/-!
# pkcs15-crypt: session / credential / operation orchestration

A shallow embedding of `src/tools/pkcs15-crypt.c`.

The tool talks to collaborators outside it (the OpenSC library, the terminal,
the file system).  A run is modelled as a pure function of

* the sequence of values `getopt_long` hands back (`List GetoptResult`), and
* an environment `Env` that fixes what every collaborator answers,

and it produces the way the process ends (`Outcome`) together with the ordered
list of collaborator calls it made (`List Event`).

Modelling conventions
* C `int` values are `Int`; counters that are only incremented are `Nat`.
* A C string is the list of its bytes before the terminator, so `strlen` is
  `List.length`.  File names and labels are `String`.
* A handle (`ctx`, `card`, `p15card`) is non-NULL exactly when the call that
  fills it returned `0`; the handles start out NULL.
* Collaborators called at most once per run answer by a fixed value.  Opening
  a file happens up to twice per run (once in `decipher`, once in `sign`), so
  the two `fopen` oracles also receive the calls made so far.
* Diagnostics printed on stderr and `free` are not collaborator calls and are
  left out of the event list.
* The fields `min_length` and `stored_length` of `sc_pkcs15_pin_info` are
  declared in `opensc-pkcs15.h`; they are lengths and are taken as naturals.
-/

namespace Pkcs15Crypt

/-- Modelled from the spec: `struct sc_pkcs15_prkey_info` is declared in
`opensc-pkcs15.h`, which is not among the sources.  The spec's KeyObject has an
identifier and a reference to its authorizing credential; the code reads the
latter as `key->com_attr.auth_id`. -/
structure sc_pkcs15_prkey_info where
  id : List Nat
  auth_id : List Nat
deriving DecidableEq, Repr

/-- Modelled from the spec: `struct sc_pkcs15_pin_info` is declared in
`opensc-pkcs15.h`, which is not among the sources.  The spec's CredentialObject
has a human-readable label, a minimum length and a maximum stored length; the
code reads them as `com_attr.label`, `min_length` and `stored_length`. -/
structure sc_pkcs15_pin_info where
  label : String
  min_length : Nat
  stored_length : Nat
deriving DecidableEq, Repr

/-- Modelled from the spec: the constants `SC_PKCS15_HASH_NONE` and
`SC_PKCS15_HASH_SHA1` are defined in `opensc-pkcs15.h`, which is not among the
sources.  They are the two values `opt_hash_type` takes (input not hashed
beforehand, input already a SHA-1 digest). -/
inductive HashType where
  | SC_PKCS15_HASH_NONE
  | SC_PKCS15_HASH_SHA1
deriving DecidableEq, Repr

/-- One value handed back by `getopt_long` in the option loop of `main`. -/
inductive GetoptResult where
  | sign                          -- 's'
  | decipher                      -- 'c'
  | key (optarg : String)         -- 'k'
  | reader (atoi_optarg : Int)    -- 'r', carrying `atoi(optarg)`
  | input (optarg : String)       -- 'i'
  | output (optarg : String)      -- 'o'
  | sha1                          -- OPT_SHA1
  | quiet                         -- 'q'
  | debug                         -- 'd'
  | pin (optarg : List Nat)       -- 'p'
  | pin_id (optarg : String)      -- "pin-id": getopt stores 0 in opt_pin, returns 0
  | unknown                       -- '?'
deriving DecidableEq, Repr

/-- The file-scope option variables together with the option counters of
`main`. -/
structure Globals where
  opt_reader : Int
  opt_pin : Int
  quiet : Nat
  opt_debug : Nat
  opt_pincode : Option (List Nat)
  opt_key_id : Option String
  opt_input : Option String
  opt_output : Option String
  opt_hash_type : HashType
  do_decipher : Nat
  do_sign : Nat
  action_count : Nat
deriving DecidableEq, Repr

/-- A collaborator call, with its arguments and its answer. -/
inductive Event where
  | sc_establish_context (r : Int)
  | sc_detect_card (reader : Int) (r : Int)
  | sc_connect_card (reader : Int) (r : Int)
  | sc_pkcs15_bind (r : Int)
  | sc_pkcs15_enum_private_keys (r : Int)
  | sc_pkcs15_hex_string_to_id (s : String)
  | sc_pkcs15_find_prkey_by_id (id : List Nat) (r : Int)
  | sc_pkcs15_find_pin_by_auth_id (auth_id : List Nat) (r : Int)
  | getpass (prompt : String) (answer : List Nat)
  | sc_pkcs15_verify_pin (pin : sc_pkcs15_pin_info) (pincode : List Nat) (pinlen : Nat) (r : Int)
  | fopen_r (path : String) (ok : Bool)
  | fopen_w (path : String) (ok : Bool)
  | sc_pkcs15_decipher (key : sc_pkcs15_prkey_info) (inp : List Nat) (inlen : Int)
      (outlen : Int) (r : Int)
  | sc_pkcs15_compute_signature (key : sc_pkcs15_prkey_info) (hash : HashType)
      (inp : List Nat) (inlen : Int) (outlen : Int) (r : Int)
  | fwrite (path : String) (data : List Nat)
  | print_binary (data : List Nat)
  | sc_pkcs15_unbind
  | sc_disconnect_card
  | sc_destroy_context
deriving DecidableEq, Repr

/-- What every collaborator answers during one run. -/
structure Env where
  /-- return value of `sc_establish_context` -/
  sc_establish_context : Int
  /-- value of `ctx->reader_count` in the established context -/
  reader_count : Int
  sc_detect_card : Int → Int
  sc_connect_card : Int → Int
  sc_pkcs15_bind : Int
  sc_pkcs15_enum_private_keys : Int
  /-- first enumerated key, `p15card->prkey_info[0]` -/
  prkey_info0 : sc_pkcs15_prkey_info
  sc_pkcs15_hex_string_to_id : String → List Nat
  /-- return value and the key stored through the out parameter -/
  sc_pkcs15_find_prkey_by_id : List Nat → Int × sc_pkcs15_prkey_info
  /-- return value and the PIN object stored through the out parameter -/
  sc_pkcs15_find_pin_by_auth_id : List Nat → Int × sc_pkcs15_pin_info
  /-- the answers typed at successive `getpass` prompts -/
  getpass : List (List Nat)
  sc_pkcs15_verify_pin : sc_pkcs15_pin_info → List Nat → Nat → Int
  /-- result of `fopen(path, "r")` after the given calls: the bytes the stream delivers,
  or `none` when the file cannot be opened -/
  fopen_r : List Event → String → Option (List Nat)
  /-- result of `fopen(path, "w")` after the given calls: whether the file opens -/
  fopen_w : List Event → String → Bool
  /-- return value and contents of the `out` buffer -/
  sc_pkcs15_decipher : sc_pkcs15_prkey_info → List Nat → Int → Int × List Nat
  /-- return value and contents of the `out` buffer -/
  sc_pkcs15_compute_signature :
    sc_pkcs15_prkey_info → HashType → List Nat → Int → Int × List Nat

/-- How the process ends. -/
inductive Outcome where
  /-- the usage message was printed: `print_usage_and_die` was called -/
  | usage_die
  /-- return of `main` with the given status -/
  | exit (status : Int)
  /-- still inside the `getpass` loop when the scripted answers ran out -/
  | prompting
deriving DecidableEq, Repr

/-- The prompt built by `sprintf(buf, "Enter PIN [%s]: ", label)`. -/
def pin_prompt (pinfo : sc_pkcs15_pin_info) : String :=
  "Enter PIN [" ++ pinfo.label ++ "]: "

/-- The `while (1)` loop of `get_pin` over the typed answers.  Result `none`:
the answers ran out; `some none`: NULL; `some (some p)`: the PIN. -/
def get_pin_loop (pinfo : sc_pkcs15_pin_info) :
    List (List Nat) → Option (Option (List Nat)) × List Event
  | [] => (none, [])
  | pincode :: rest =>
    if pincode.length = 0 then
      (some none, [Event.getpass (pin_prompt pinfo) pincode])
    else if pincode.length < pinfo.min_length ∨ pincode.length > pinfo.stored_length then
      ((get_pin_loop pinfo rest).1,
        Event.getpass (pin_prompt pinfo) pincode :: (get_pin_loop pinfo rest).2)
    else
      (some (some pincode), [Event.getpass (pin_prompt pinfo) pincode])

/-- Source function `char * get_pin(struct sc_pkcs15_pin_info *pinfo)`. -/
def get_pin (env : Env) (g : Globals) (pinfo : sc_pkcs15_pin_info) :
    Option (Option (List Nat)) × List Event :=
  match g.opt_pincode with
  | some p => (some (some p), [])
  | none => get_pin_loop pinfo env.getpass

/-- Source function `int read_input(u8 *buf, int buflen)`: return value, the
bytes put in `buf`, and the calls made.  `hist` is the calls made before.  Both
callers test `opt_input` first; without an input file name the `fopen` fails.
The single `fread` delivers at most `buflen` bytes of the file. -/
def read_input (env : Env) (g : Globals) (buflen : Nat) (hist : List Event) :
    Int × List Nat × List Event :=
  match g.opt_input with
  | none => (-1, [], [])
  | some path =>
    match env.fopen_r hist path with
    | none => (-1, [], [Event.fopen_r path false])
    | some content =>
      let c : Int := ((content.take buflen).length : Int)
      if c < 0 then (-1, content.take buflen, [Event.fopen_r path true])
      else (c, content.take buflen, [Event.fopen_r path true])

/-- Source function `int write_output(const u8 *buf, int len)`. -/
def write_output (env : Env) (g : Globals) (buf : List Nat) (len : Int)
    (hist : List Event) : Int × List Event :=
  match g.opt_output with
  | some path =>
    if env.fopen_w hist path then
      (0, [Event.fopen_w path true, Event.fwrite path (buf.take len.toNat)])
    else
      (-1, [Event.fopen_w path false])
  | none => (0, [Event.print_binary (buf.take len.toNat)])

/-- Source function `int sign(struct sc_pkcs15_prkey_info *key)`. -/
def sign (env : Env) (g : Globals) (key : sc_pkcs15_prkey_info) (hist : List Event) :
    Int × List Event :=
  if g.opt_input = none then (2, [])
  else if g.opt_output = none then (2, [])
  else
    let rd := read_input env g 1024 hist
    if rd.1 < 0 then (2, rd.2.2)
    else
      let p := env.sc_pkcs15_compute_signature key g.opt_hash_type rd.2.1 rd.1
      let call := Event.sc_pkcs15_compute_signature key g.opt_hash_type rd.2.1 rd.1 1024 p.1
      if p.1 < 0 then (1, rd.2.2 ++ [call])
      else
        let w := write_output env g p.2 p.1 (hist ++ rd.2.2 ++ [call])
        (0, rd.2.2 ++ [call] ++ w.2)

/-- Source function `int decipher(struct sc_pkcs15_prkey_info *key)`. -/
def decipher (env : Env) (g : Globals) (key : sc_pkcs15_prkey_info) (hist : List Event) :
    Int × List Event :=
  if g.opt_input = none then (2, [])
  else
    let rd := read_input env g 1024 hist
    if rd.1 < 0 then (2, rd.2.2)
    else
      let p := env.sc_pkcs15_decipher key rd.2.1 rd.1
      let call := Event.sc_pkcs15_decipher key rd.2.1 rd.1 1024 p.1
      if p.1 < 0 then (1, rd.2.2 ++ [call])
      else
        let w := write_output env g p.2 p.1 (hist ++ rd.2.2 ++ [call])
        (0, rd.2.2 ++ [call] ++ w.2)

/-- Initial values of the option variables and counters. -/
def Globals.init : Globals :=
  ⟨0, 0, 0, 0, none, none, none, none, HashType.SC_PKCS15_HASH_NONE, 0, 0, 0⟩

/-- The `switch (c)` of the option loop. -/
def getopt_case (g : Globals) : GetoptResult → Globals
  | .sign => { g with do_sign := g.do_sign + 1, action_count := g.action_count + 1 }
  | .decipher => { g with do_decipher := g.do_decipher + 1, action_count := g.action_count + 1 }
  | .key a => { g with opt_key_id := some a, action_count := g.action_count + 1 }
  | .reader n => { g with opt_reader := n }
  | .input a => { g with opt_input := some a }
  | .output a => { g with opt_output := some a }
  | .sha1 => { g with opt_hash_type := HashType.SC_PKCS15_HASH_SHA1 }
  | .quiet => { g with quiet := g.quiet + 1 }
  | .debug => { g with opt_debug := g.opt_debug + 1 }
  | .pin a => { g with opt_pincode := some a }
  | .pin_id _ => { g with opt_pin := 0 }
  | .unknown => g

/-- The option loop of `main`; `none` when `'?'` makes it call
`print_usage_and_die`. -/
def getopt_loop : List GetoptResult → Globals → Option Globals
  | [], g => some g
  | c :: rest, g =>
    if c = GetoptResult.unknown then none
    else getopt_loop rest (getopt_case g c)

/-- The code after the label `end:` of `main`: the release calls, given which
handles are non-NULL. -/
def main_end (p15card card ctx : Bool) : List Event :=
  (if p15card then [Event.sc_pkcs15_unbind] else []) ++
  (if card then [Event.sc_disconnect_card] else []) ++
  (if ctx then [Event.sc_destroy_context] else [])

/-- Lines 330-346 of `main`: the `if (do_sign)` block and the code after `end:`,
reached with all three handles acquired.  `hist` is the calls made before. -/
def main_sign_stage (env : Env) (g : Globals) (key : sc_pkcs15_prkey_info)
    (hist : List Event) : Outcome × List Event :=
  if g.do_sign ≠ 0 then
    if (sign env g key hist).1 ≠ 0 then
      (Outcome.exit (sign env g key hist).1, (sign env g key hist).2 ++ main_end true true true)
    else
      (Outcome.exit 0, (sign env g key hist).2 ++ main_end true true true)
  else
    (Outcome.exit 0, main_end true true true)

/-- Lines 325-346 of `main`: the `if (do_decipher)` block followed by the sign
stage, reached once the PIN has been verified. -/
def main_ops (env : Env) (g : Globals) (key : sc_pkcs15_prkey_info)
    (hist : List Event) : Outcome × List Event :=
  if g.do_decipher ≠ 0 then
    if (decipher env g key hist).1 ≠ 0 then
      (Outcome.exit (decipher env g key hist).1,
        (decipher env g key hist).2 ++ main_end true true true)
    else
      ((main_sign_stage env g key (hist ++ (decipher env g key hist).2)).1,
        (decipher env g key hist).2 ++
          (main_sign_stage env g key (hist ++ (decipher env g key hist).2)).2)
  else
    main_sign_stage env g key hist

/-- Lines 304-346 of `main`: PIN lookup, PIN entry, verification and the
operations, for the resolved `key`. -/
def main_with_key (env : Env) (g : Globals) (key : sc_pkcs15_prkey_info)
    (hist : List Event) : Outcome × List Event :=
  let fp := env.sc_pkcs15_find_pin_by_auth_id key.auth_id
  let t1 := [Event.sc_pkcs15_find_pin_by_auth_id key.auth_id fp.1]
  if fp.1 ≠ 0 then (Outcome.exit 1, t1 ++ main_end true true true)
  else
    let gp := get_pin env g fp.2
    match gp.1 with
    | none => (Outcome.prompting, t1 ++ gp.2)
    | some none => (Outcome.exit 5, t1 ++ gp.2 ++ main_end true true true)
    | some (some pincode) =>
      let v := env.sc_pkcs15_verify_pin fp.2 pincode pincode.length
      let t2 := t1 ++ gp.2 ++ [Event.sc_pkcs15_verify_pin fp.2 pincode pincode.length v]
      if v ≠ 0 then (Outcome.exit 5, t2 ++ main_end true true true)
      else ((main_ops env g key (hist ++ t2)).1, t2 ++ (main_ops env g key (hist ++ t2)).2)

/-- Lines 285-346 of `main`: key enumeration and key resolution on the bound
catalog, then the rest of the run. -/
def main_bound (env : Env) (g : Globals) (hist : List Event) : Outcome × List Event :=
  let t1 := [Event.sc_pkcs15_enum_private_keys env.sc_pkcs15_enum_private_keys]
  if env.sc_pkcs15_enum_private_keys ≤ 0 then
    (Outcome.exit 1, t1 ++ main_end true true true)
  else
    match g.opt_key_id with
    | some s =>
      let id := env.sc_pkcs15_hex_string_to_id s
      let f := env.sc_pkcs15_find_prkey_by_id id
      let t2 := t1 ++ [Event.sc_pkcs15_hex_string_to_id s,
                       Event.sc_pkcs15_find_prkey_by_id id f.1]
      if f.1 < 0 then (Outcome.exit 2, t2 ++ main_end true true true)
      else ((main_with_key env g f.2 (hist ++ t2)).1,
            t2 ++ (main_with_key env g f.2 (hist ++ t2)).2)
    | none =>
      ((main_with_key env g env.prkey_info0 (hist ++ t1)).1,
        t1 ++ (main_with_key env g env.prkey_info0 (hist ++ t1)).2)

/-- Lines 238-346 of `main`, for the option values `g` left by the option
loop. -/
def main_run (env : Env) (g : Globals) : Outcome × List Event :=
  if g.action_count = 0 then (Outcome.usage_die, [])
  else
  let t1 := [Event.sc_establish_context env.sc_establish_context]
  if env.sc_establish_context ≠ 0 then (Outcome.exit 1, t1)
  else if g.opt_reader ≥ env.reader_count ∨ g.opt_reader < 0 then
    (Outcome.exit 1, t1 ++ main_end false false true)
  else
  let t2 := t1 ++ [Event.sc_detect_card g.opt_reader (env.sc_detect_card g.opt_reader)]
  if env.sc_detect_card g.opt_reader ≠ 1 then (Outcome.exit 3, t2)
  else
  let t3 := t2 ++ [Event.sc_connect_card g.opt_reader (env.sc_connect_card g.opt_reader)]
  if env.sc_connect_card g.opt_reader ≠ 0 then
    (Outcome.exit 1, t3 ++ main_end false false true)
  else
  let t4 := t3 ++ [Event.sc_pkcs15_bind env.sc_pkcs15_bind]
  if env.sc_pkcs15_bind ≠ 0 then (Outcome.exit 1, t4 ++ main_end false true true)
  else ((main_bound env g t4).1, t4 ++ (main_bound env g t4).2)

/-- Source function `int main(int argc, char * const argv[])`, on the values
`getopt_long` returns for `argv`. -/
def main (env : Env) (opts : List GetoptResult) : Outcome × List Event :=
  match getopt_loop opts Globals.init with
  | none => (Outcome.usage_die, [])
  | some g => main_run env g

/-! ## Reference definition of the secret prompt -/

/-- An answer that ends the prompting: it is empty, or its length lies within
the bounds of the PIN object. -/
def ends_prompting (pinfo : sc_pkcs15_pin_info) (answer : List Nat) : Bool :=
  answer.length == 0 ||
    (decide (pinfo.min_length ≤ answer.length) && decide (answer.length ≤ pinfo.stored_length))

/-- The secret prompt as the specification words it: a supplied PIN is returned
as it is and nothing is asked; otherwise the answers are taken in order, the
ones that do not end the prompting are skipped, and the first one that does
decides: abort when it is empty, that answer otherwise.  The second component
is the list of answers that were asked for. -/
def get_pin_spec (supplied : Option (List Nat)) (pinfo : sc_pkcs15_pin_info)
    (answers : List (List Nat)) : Option (Option (List Nat)) × List (List Nat) :=
  match supplied with
  | some p => (some (some p), [])
  | none =>
    match answers.dropWhile (fun a => !ends_prompting pinfo a) with
    | [] => (none, answers)
    | a :: _ =>
      (if a.length = 0 then some none else some (some a),
        answers.takeWhile (fun a => !ends_prompting pinfo a) ++ [a])

/-! ## Reading event lists -/

/-- The collaborator functions. -/
inductive Fn where
  | sc_establish_context
  | sc_detect_card
  | sc_connect_card
  | sc_pkcs15_bind
  | sc_pkcs15_enum_private_keys
  | sc_pkcs15_hex_string_to_id
  | sc_pkcs15_find_prkey_by_id
  | sc_pkcs15_find_pin_by_auth_id
  | getpass
  | sc_pkcs15_verify_pin
  | fopen_r
  | fopen_w
  | sc_pkcs15_decipher
  | sc_pkcs15_compute_signature
  | fwrite
  | print_binary
  | sc_pkcs15_unbind
  | sc_disconnect_card
  | sc_destroy_context
deriving DecidableEq, Repr

/-- The function an event is a call of. -/
def Event.fn : Event → Fn
  | .sc_establish_context _ => Fn.sc_establish_context
  | .sc_detect_card _ _ => Fn.sc_detect_card
  | .sc_connect_card _ _ => Fn.sc_connect_card
  | .sc_pkcs15_bind _ => Fn.sc_pkcs15_bind
  | .sc_pkcs15_enum_private_keys _ => Fn.sc_pkcs15_enum_private_keys
  | .sc_pkcs15_hex_string_to_id _ => Fn.sc_pkcs15_hex_string_to_id
  | .sc_pkcs15_find_prkey_by_id _ _ => Fn.sc_pkcs15_find_prkey_by_id
  | .sc_pkcs15_find_pin_by_auth_id _ _ => Fn.sc_pkcs15_find_pin_by_auth_id
  | .getpass _ _ => Fn.getpass
  | .sc_pkcs15_verify_pin _ _ _ _ => Fn.sc_pkcs15_verify_pin
  | .fopen_r _ _ => Fn.fopen_r
  | .fopen_w _ _ => Fn.fopen_w
  | .sc_pkcs15_decipher _ _ _ _ _ => Fn.sc_pkcs15_decipher
  | .sc_pkcs15_compute_signature _ _ _ _ _ _ => Fn.sc_pkcs15_compute_signature
  | .fwrite _ _ => Fn.fwrite
  | .print_binary _ => Fn.print_binary
  | .sc_pkcs15_unbind => Fn.sc_pkcs15_unbind
  | .sc_disconnect_card => Fn.sc_disconnect_card
  | .sc_destroy_context => Fn.sc_destroy_context

/-- The sequence of functions called, in order. -/
def calls (tr : List Event) : List Fn := tr.map Event.fn

/-- A call of one of the two cryptographic primitives. -/
def Fn.is_crypto (f : Fn) : Bool :=
  f = Fn.sc_pkcs15_decipher || f = Fn.sc_pkcs15_compute_signature

/-- A call of one of the three release functions. -/
def Fn.is_release (f : Fn) : Bool :=
  f = Fn.sc_pkcs15_unbind || f = Fn.sc_disconnect_card || f = Fn.sc_destroy_context

/-- Position of a collaborator function in the fixed order in which `main`
goes through its stages; the file and primitive calls of the two operations
share one position. -/
def Fn.stage : Fn → Nat
  | .sc_establish_context => 0
  | .sc_detect_card => 1
  | .sc_connect_card => 2
  | .sc_pkcs15_bind => 3
  | .sc_pkcs15_enum_private_keys => 4
  | .sc_pkcs15_hex_string_to_id => 5
  | .sc_pkcs15_find_prkey_by_id => 6
  | .sc_pkcs15_find_pin_by_auth_id => 7
  | .getpass => 8
  | .sc_pkcs15_verify_pin => 9
  | .fopen_r => 10
  | .fopen_w => 10
  | .sc_pkcs15_decipher => 10
  | .sc_pkcs15_compute_signature => 10
  | .fwrite => 10
  | .print_binary => 10
  | .sc_pkcs15_unbind => 11
  | .sc_disconnect_card => 12
  | .sc_destroy_context => 13

/-- The key a cryptographic primitive is called on. -/
def Event.crypto_key : Event → Option sc_pkcs15_prkey_info
  | .sc_pkcs15_decipher k _ _ _ _ => some k
  | .sc_pkcs15_compute_signature k _ _ _ _ _ => some k
  | _ => none

/-! ## Concrete environments -/

/-- An environment in which every collaborator succeeds: one reader with a
card, one key, a PIN object of length 4 to 8, a 20-byte input file. -/
def env_ok : Env where
  sc_establish_context := 0
  reader_count := 1
  sc_detect_card := fun _ => 1
  sc_connect_card := fun _ => 0
  sc_pkcs15_bind := 0
  sc_pkcs15_enum_private_keys := 1
  prkey_info0 := ⟨[1], [2]⟩
  sc_pkcs15_hex_string_to_id := fun _ => [69]
  sc_pkcs15_find_prkey_by_id := fun _ => (0, ⟨[69], [2]⟩)
  sc_pkcs15_find_pin_by_auth_id := fun _ => (0, ⟨"pin", 4, 8⟩)
  getpass := []
  sc_pkcs15_verify_pin := fun _ _ _ => 0
  fopen_r := fun _ _ => some (List.replicate 20 7)
  fopen_w := fun _ _ => true
  sc_pkcs15_decipher := fun _ _ _ => (3, [1, 2, 3])
  sc_pkcs15_compute_signature := fun _ _ _ _ => (3, [9, 8, 7])

/-- As `env_ok`, but no card is in the reader. -/
def env_no_card : Env := { env_ok with sc_detect_card := fun _ => 0 }

/-- As `env_ok`, but no file can be opened for writing. -/
def env_no_write : Env := { env_ok with fopen_w := fun _ _ => false }

/-- As `env_ok`, but the input file holds 1025 bytes, the last one different
from the others. -/
def env_long_input : Env :=
  { env_ok with fopen_r := fun _ _ => some (List.replicate 1024 7 ++ [8]) }

/-- As `env_ok`, but the card rejects every PIN. -/
def env_wrong_pin : Env := { env_ok with sc_pkcs15_verify_pin := fun _ _ _ => 1 }

/-- Option variables with input file `in` and output file `out`. -/
def globals_in_out : Globals :=
  { Globals.init with opt_input := some "in", opt_output := some "out" }

/-- Option variables with input file `in` and no output file. -/
def globals_in : Globals :=
  { Globals.init with opt_input := some "in" }

/-- As `env_ok`, but no key is found by id. -/
def env_no_key : Env :=
  { env_ok with sc_pkcs15_find_prkey_by_id := fun _ => (-1, ⟨[], []⟩) }

/-- Option values after `-s -i in -o out -p 12`-like arguments: sign only. -/
def opts_sign : List GetoptResult :=
  [GetoptResult.sign, GetoptResult.input "in", GetoptResult.output "out",
    GetoptResult.pin [49, 50]]

/-- Sign and decipher together. -/
def opts_both : List GetoptResult :=
  [GetoptResult.sign, GetoptResult.decipher, GetoptResult.input "in",
    GetoptResult.output "out", GetoptResult.pin [49, 50]]

/-- As `env_ok`, with a first answer at the PIN prompt that is too short and
an empty second answer. -/
def env_abort : Env := { env_ok with getpass := [[49], []] }

/-- Sign alone, with no PIN on the command line. -/
def opts_prompt : List GetoptResult :=
  [GetoptResult.sign, GetoptResult.input "in", GetoptResult.output "out"]

/-- Sign with the key id `45`. -/
def opts_key : List GetoptResult :=
  [GetoptResult.sign, GetoptResult.key "45", GetoptResult.input "in",
    GetoptResult.output "out", GetoptResult.pin [49, 50]]

/-- The option values the option loop leaves for `opts_both`. -/
def globals_both : Globals :=
  { Globals.init with
    opt_pincode := some [49, 50], opt_input := some "in", opt_output := some "out",
    do_decipher := 1, do_sign := 1, action_count := 2 }

/-! ## Theorems -/

theorem get_pin_loop_eq_spec (pinfo : sc_pkcs15_pin_info) (answers : List (List Nat)) :
    get_pin_loop pinfo answers =
      ((get_pin_spec none pinfo answers).1,
        (get_pin_spec none pinfo answers).2.map (Event.getpass (pin_prompt pinfo))) := by
  induction answers with
  | nil => simp [get_pin_loop, get_pin_spec]
  | cons a rest ih =>
    by_cases h0 : a.length = 0
    · simp [get_pin_loop, get_pin_spec, ends_prompting, h0]
    · by_cases hr : a.length < pinfo.min_length ∨ a.length > pinfo.stored_length
      · have hb : ends_prompting pinfo a = false := by
          simp only [ends_prompting, Bool.or_eq_false_iff, Bool.and_eq_false_iff,
            beq_eq_false_iff_ne, decide_eq_false_iff_not]
          refine ⟨h0, ?_⟩
          rcases hr with h | h
          · left; omega
          · right; omega
        rw [get_pin_loop, if_neg h0, if_pos hr, ih]
        simp only [get_pin_spec, List.dropWhile_cons, List.takeWhile_cons, hb, Bool.not_false,
          if_true]
        cases hd : List.dropWhile (fun a => !ends_prompting pinfo a) rest <;> simp
      · have hb : ends_prompting pinfo a = true := by
          simp only [ends_prompting, Bool.or_eq_true, Bool.and_eq_true, decide_eq_true_eq]
          right
          omega
        rw [get_pin_loop, if_neg h0, if_neg hr]
        simp [get_pin_spec, List.dropWhile_cons, List.takeWhile_cons, hb, h0]

theorem get_pin_loop_fn (pinfo : sc_pkcs15_pin_info) (answers : List (List Nat)) :
    ∀ e ∈ (get_pin_loop pinfo answers).2, ∃ a, e = Event.getpass (pin_prompt pinfo) a ∧ a ∈ answers := by
  induction answers with
  | nil => simp [get_pin_loop]
  | cons a rest ih =>
    intro e he
    rw [get_pin_loop] at he
    split_ifs at he
    · simp at he; exact ⟨a, he, by simp⟩
    · simp at he
      rcases he with he | he
      · exact ⟨a, he, by simp⟩
      · obtain ⟨b, hb, hm⟩ := ih e he
        exact ⟨b, hb, by simp [hm]⟩
    · simp at he; exact ⟨a, he, by simp⟩

theorem get_pin_fn (env : Env) (g : Globals) (pinfo : sc_pkcs15_pin_info) :
    ∀ e ∈ (get_pin env g pinfo).2, e.fn = Fn.getpass := by
  intro e he
  unfold get_pin at he
  split at he
  · simp at he
  · obtain ⟨a, rfl, -⟩ := get_pin_loop_fn pinfo env.getpass e he
    rfl

theorem read_input_events (env : Env) (g : Globals) (n : Nat) (hist : List Event) :
    ∀ e ∈ (read_input env g n hist).2.2, e.fn = Fn.fopen_r := by
  intro e he
  unfold read_input at he
  split at he
  · simp at he
  · split at he
    · simp at he; subst he; rfl
    · simp only [] at he
      split_ifs at he <;> (simp at he; subst he; rfl)

theorem write_output_events (env : Env) (g : Globals) (buf : List Nat) (len : Int)
    (hist : List Event) :
    ∀ e ∈ (write_output env g buf len hist).2,
      e.fn = Fn.fopen_w ∨ e.fn = Fn.fwrite ∨ e.fn = Fn.print_binary := by
  intro e he
  unfold write_output at he
  split at he
  · split_ifs at he
    · simp at he; rcases he with rfl | rfl <;> simp [Event.fn]
    · simp at he; subst he; simp [Event.fn]
  · simp at he; subst he; simp [Event.fn]

/-- Every call made by `sign` is a file operation or the one signature call on
`key`. -/
theorem sign_events (env : Env) (g : Globals) (key : sc_pkcs15_prkey_info) (hist : List Event) :
    ∀ e ∈ (sign env g key hist).2,
      e.fn = Fn.fopen_r ∨ e.fn = Fn.fopen_w ∨ e.fn = Fn.fwrite ∨ e.fn = Fn.print_binary ∨
      ∃ inp inlen r, e = Event.sc_pkcs15_compute_signature key g.opt_hash_type inp inlen 1024 r := by
  intro e he
  simp only [sign] at he
  split_ifs at he
  · simp at he
  · simp at he
  · exact Or.inl (read_input_events env g 1024 hist e he)
  · simp only [List.mem_append, List.mem_singleton] at he
    rcases he with he | he
    · exact Or.inl (read_input_events env g 1024 hist e he)
    · exact Or.inr (Or.inr (Or.inr (Or.inr ⟨_, _, _, he⟩)))
  · simp only [List.mem_append, List.mem_singleton] at he
    rcases he with (he | he) | he
    · exact Or.inl (read_input_events env g 1024 hist e he)
    · exact Or.inr (Or.inr (Or.inr (Or.inr ⟨_, _, _, he⟩)))
    · rcases write_output_events _ _ _ _ _ e he with h | h | h <;> simp [h]

theorem decipher_events (env : Env) (g : Globals) (key : sc_pkcs15_prkey_info) (hist : List Event) :
    ∀ e ∈ (decipher env g key hist).2,
      e.fn = Fn.fopen_r ∨ e.fn = Fn.fopen_w ∨ e.fn = Fn.fwrite ∨ e.fn = Fn.print_binary ∨
      ∃ inp inlen r, e = Event.sc_pkcs15_decipher key inp inlen 1024 r := by
  intro e he
  simp only [decipher] at he
  split_ifs at he
  · simp at he
  · exact Or.inl (read_input_events env g 1024 hist e he)
  · simp only [List.mem_append, List.mem_singleton] at he
    rcases he with he | he
    · exact Or.inl (read_input_events env g 1024 hist e he)
    · exact Or.inr (Or.inr (Or.inr (Or.inr ⟨_, _, _, he⟩)))
  · simp only [List.mem_append, List.mem_singleton] at he
    rcases he with (he | he) | he
    · exact Or.inl (read_input_events env g 1024 hist e he)
    · exact Or.inr (Or.inr (Or.inr (Or.inr ⟨_, _, _, he⟩)))
    · rcases write_output_events _ _ _ _ _ e he with h | h | h <;> simp [h]

theorem sign_stage_ge (env : Env) (g : Globals) (key : sc_pkcs15_prkey_info) (hist : List Event) :
    ∀ e ∈ (sign env g key hist).2, 10 ≤ e.fn.stage := by
  intro e he
  rcases sign_events env g key hist e he with h | h | h | h | ⟨_, _, _, rfl⟩ <;>
    first
    | (rw [h]; decide)
    | simp [Fn.stage, Event.fn]

theorem decipher_stage_ge (env : Env) (g : Globals) (key : sc_pkcs15_prkey_info)
    (hist : List Event) : ∀ e ∈ (decipher env g key hist).2, 10 ≤ e.fn.stage := by
  intro e he
  rcases decipher_events env g key hist e he with h | h | h | h | ⟨_, _, _, rfl⟩ <;>
    first
    | (rw [h]; decide)
    | simp [Fn.stage, Event.fn]

theorem main_end_release (a b c : Bool) : ∀ e ∈ main_end a b c, 11 ≤ e.fn.stage := by
  intro e he
  simp only [main_end, List.mem_append] at he
  rcases he with (he | he) | he <;> split_ifs at he <;> simp at he <;> subst he <;> decide

theorem main_end_stage_ge (a b c : Bool) : ∀ e ∈ main_end a b c, 10 ≤ e.fn.stage := by
  intro e he
  have := main_end_release a b c e he
  omega

theorem main_sign_stage_ge (env : Env) (g : Globals) (key : sc_pkcs15_prkey_info)
    (hist : List Event) : ∀ e ∈ (main_sign_stage env g key hist).2, 10 ≤ e.fn.stage := by
  intro e he
  unfold main_sign_stage at he
  split_ifs at he <;> simp only [List.mem_append] at he
  · rcases he with he | he
    · exact sign_stage_ge _ _ _ _ e he
    · exact main_end_stage_ge _ _ _ e he
  · rcases he with he | he
    · exact sign_stage_ge _ _ _ _ e he
    · exact main_end_stage_ge _ _ _ e he
  · exact main_end_stage_ge _ _ _ e he

theorem main_ops_stage_ge (env : Env) (g : Globals) (key : sc_pkcs15_prkey_info)
    (hist : List Event) : ∀ e ∈ (main_ops env g key hist).2, 10 ≤ e.fn.stage := by
  intro e he
  unfold main_ops at he
  split_ifs at he
  · simp only [List.mem_append] at he
    rcases he with he | he
    · exact decipher_stage_ge _ _ _ _ e he
    · exact main_end_stage_ge _ _ _ e he
  · simp only [List.mem_append] at he
    rcases he with he | he
    · exact decipher_stage_ge _ _ _ _ e he
    · exact main_sign_stage_ge _ _ _ _ e he
  · exact main_sign_stage_ge _ _ _ _ e he

theorem main_with_key_stage_ge (env : Env) (g : Globals) (key : sc_pkcs15_prkey_info)
    (hist : List Event) : ∀ e ∈ (main_with_key env g key hist).2, 7 ≤ e.fn.stage := by
  intro e he
  have hend := main_end_stage_ge true true true e
  have hpin := get_pin_fn env g (env.sc_pkcs15_find_pin_by_auth_id key.auth_id).2 e
  simp only [main_with_key] at he
  split_ifs at he
  · simp only [List.mem_append, List.mem_singleton] at he
    rcases he with rfl | he
    · simp [Fn.stage, Event.fn]
    · have := hend he; omega
  · split at he
    · simp only [List.mem_append, List.mem_singleton] at he
      rcases he with rfl | he
      · simp [Fn.stage, Event.fn]
      · (rw [hpin he]; decide)
    · simp only [List.mem_append, List.mem_singleton] at he
      rcases he with (rfl | he) | he
      · simp [Fn.stage, Event.fn]
      · (rw [hpin he]; decide)
      · have := hend he; omega
    · split_ifs at he
      · simp only [List.mem_append, List.mem_singleton] at he
        rcases he with ((rfl | he) | rfl) | he
        · simp [Fn.stage, Event.fn]
        · (rw [hpin he]; decide)
        · simp [Fn.stage, Event.fn]
        · have := hend he; omega
      · simp only [List.mem_append, List.mem_singleton] at he
        rcases he with ((rfl | he) | rfl) | he
        · simp [Fn.stage, Event.fn]
        · (rw [hpin he]; decide)
        · simp [Fn.stage, Event.fn]
        · have := main_ops_stage_ge _ _ _ _ e he; omega

/-- The five ways the part of `main` after key resolution can go. -/
theorem main_with_key_cases (env : Env) (g : Globals) (key : sc_pkcs15_prkey_info)
    (hist : List Event) :
    let fp := env.sc_pkcs15_find_pin_by_auth_id key.auth_id
    let gp := get_pin env g fp.2
    let lookup := Event.sc_pkcs15_find_pin_by_auth_id key.auth_id fp.1
    (fp.1 ≠ 0 ∧ main_with_key env g key hist =
        (Outcome.exit 1, lookup :: main_end true true true)) ∨
    (fp.1 = 0 ∧ gp.1 = none ∧ main_with_key env g key hist =
        (Outcome.prompting, lookup :: gp.2)) ∨
    (fp.1 = 0 ∧ gp.1 = some none ∧ main_with_key env g key hist =
        (Outcome.exit 5, lookup :: gp.2 ++ main_end true true true)) ∨
    (∃ code, fp.1 = 0 ∧ gp.1 = some (some code) ∧
        env.sc_pkcs15_verify_pin fp.2 code code.length ≠ 0 ∧
        main_with_key env g key hist =
          (Outcome.exit 5, lookup :: gp.2 ++
            Event.sc_pkcs15_verify_pin fp.2 code code.length
              (env.sc_pkcs15_verify_pin fp.2 code code.length) :: main_end true true true)) ∨
    (∃ code, fp.1 = 0 ∧ gp.1 = some (some code) ∧
        env.sc_pkcs15_verify_pin fp.2 code code.length = 0 ∧
        main_with_key env g key hist =
          ((main_ops env g key (hist ++ lookup :: gp.2 ++
              [Event.sc_pkcs15_verify_pin fp.2 code code.length 0])).1,
            lookup :: gp.2 ++ Event.sc_pkcs15_verify_pin fp.2 code code.length 0 ::
              (main_ops env g key (hist ++ lookup :: gp.2 ++
                [Event.sc_pkcs15_verify_pin fp.2 code code.length 0])).2)) := by
  intro fp gp lookup
  simp only [main_with_key]
  split_ifs with h1
  · exact Or.inl ⟨h1, rfl⟩
  · have h1' : fp.1 = 0 := not_not.1 h1
    right
    split
    · next h => exact Or.inl ⟨h1', h, rfl⟩
    · next h => exact Or.inr (Or.inl ⟨h1', h, by simp⟩)
    · next code h =>
      right; right
      split_ifs with hv
      · exact Or.inl ⟨code, h1', h, hv, by simp⟩
      · have hv' := not_not.1 hv
        refine Or.inr ⟨code, h1', h, hv', ?_⟩
        rw [hv']
        simp

theorem main_bound_reach (env : Env) (g : Globals) (hist : List Event) :
    ((∀ e ∈ (main_bound env g hist).2, e.fn.stage < 7 ∨ 11 ≤ e.fn.stage) ∧
      ((main_bound env g hist).1 = Outcome.exit 1 ∨
        (main_bound env g hist).1 = Outcome.exit 2)) ∨
    ∃ pre key, (∀ e ∈ pre, 4 ≤ e.fn.stage ∧ e.fn.stage < 7) ∧
      main_bound env g hist =
        ((main_with_key env g key (hist ++ pre)).1,
          pre ++ (main_with_key env g key (hist ++ pre)).2) := by
  simp only [main_bound]
  split_ifs with h1
  · left
    refine ⟨?_, Or.inl rfl⟩
    intro e he
    simp only [List.mem_append, List.mem_singleton] at he
    rcases he with rfl | he
    · left; simp [Event.fn, Fn.stage]
    · right; exact main_end_release _ _ _ e he
  · split
    · next s hs =>
      split_ifs with h2
      · left
        refine ⟨?_, Or.inr rfl⟩
        intro e he
        simp only [List.mem_append, List.mem_singleton, List.mem_cons, List.mem_nil_iff,
          or_false] at he
        rcases he with (rfl | rfl | rfl) | he
        · left; simp [Event.fn, Fn.stage]
        · left; simp [Event.fn, Fn.stage]
        · left; simp [Event.fn, Fn.stage]
        · right; exact main_end_release _ _ _ e he
      · right
        refine ⟨_, _, ?_, rfl⟩
        intro e he
        simp only [List.mem_append, List.mem_singleton, List.mem_cons, List.mem_nil_iff,
          or_false] at he
        rcases he with rfl | rfl | rfl <;> simp [Event.fn, Fn.stage]
    · right
      refine ⟨_, _, ?_, rfl⟩
      intro e he
      simp only [List.mem_singleton] at he
      subst he
      simp [Event.fn, Fn.stage]

theorem main_run_reach (env : Env) (g : Globals) :
    ((∀ e ∈ (main_run env g).2, e.fn.stage < 7 ∨ 11 ≤ e.fn.stage) ∧
      ((main_run env g).1 = Outcome.usage_die ∨ (main_run env g).1 = Outcome.exit 1 ∨
        (main_run env g).1 = Outcome.exit 2 ∨ (main_run env g).1 = Outcome.exit 3)) ∨
    ∃ pre key, (∀ e ∈ pre, e.fn.stage < 7) ∧
      main_run env g =
        ((main_with_key env g key pre).1, pre ++ (main_with_key env g key pre).2) := by
  simp only [main_run]
  split_ifs with h0 h1 h2 h3 h4 h5
  · exact Or.inl ⟨by simp, Or.inl rfl⟩
  · refine Or.inl ⟨?_, Or.inr (Or.inl rfl)⟩
    intro e he
    simp only [List.mem_singleton] at he
    subst he; left; simp [Event.fn, Fn.stage]
  · refine Or.inl ⟨?_, Or.inr (Or.inl rfl)⟩
    intro e he
    simp only [List.mem_append, List.mem_singleton] at he
    rcases he with rfl | he
    · left; simp [Event.fn, Fn.stage]
    · right; exact main_end_release _ _ _ e he
  · refine Or.inl ⟨?_, Or.inr (Or.inr (Or.inr rfl))⟩
    intro e he
    simp only [List.mem_append, List.mem_singleton] at he
    rcases he with rfl | rfl <;> (left; simp [Event.fn, Fn.stage])
  · refine Or.inl ⟨?_, Or.inr (Or.inl rfl)⟩
    intro e he
    simp only [List.mem_append, List.mem_singleton] at he
    rcases he with ((rfl | rfl) | rfl) | he
    · left; simp [Event.fn, Fn.stage]
    · left; simp [Event.fn, Fn.stage]
    · left; simp [Event.fn, Fn.stage]
    · right; exact main_end_release _ _ _ e he
  · refine Or.inl ⟨?_, Or.inr (Or.inl rfl)⟩
    intro e he
    simp only [List.mem_append, List.mem_singleton] at he
    rcases he with (((rfl | rfl) | rfl) | rfl) | he
    · left; simp [Event.fn, Fn.stage]
    · left; simp [Event.fn, Fn.stage]
    · left; simp [Event.fn, Fn.stage]
    · left; simp [Event.fn, Fn.stage]
    · right; exact main_end_release _ _ _ e he
  · have ht : ∀ e ∈ [Event.sc_establish_context env.sc_establish_context] ++
          [Event.sc_detect_card g.opt_reader (env.sc_detect_card g.opt_reader)] ++
          [Event.sc_connect_card g.opt_reader (env.sc_connect_card g.opt_reader)] ++
          [Event.sc_pkcs15_bind env.sc_pkcs15_bind], e.fn.stage < 7 := by
      intro e he
      simp only [List.mem_append, List.mem_singleton] at he
      rcases he with ((rfl | rfl) | rfl) | rfl <;> simp [Event.fn, Fn.stage]
    generalize [Event.sc_establish_context env.sc_establish_context] ++
          [Event.sc_detect_card g.opt_reader (env.sc_detect_card g.opt_reader)] ++
          [Event.sc_connect_card g.opt_reader (env.sc_connect_card g.opt_reader)] ++
          [Event.sc_pkcs15_bind env.sc_pkcs15_bind] = t4 at ht ⊢
    rcases main_bound_reach env g t4 with ⟨hev, ho⟩ | ⟨pre, key, hpre, heq⟩
    · left
      refine ⟨?_, ?_⟩
      · intro e he
        simp only [List.mem_append] at he
        rcases he with he | he
        · exact Or.inl (ht e he)
        · exact hev e he
      · rcases ho with ho | ho
        · exact Or.inr (Or.inl ho)
        · exact Or.inr (Or.inr (Or.inl ho))
    · right
      refine ⟨t4 ++ pre, key, ?_, ?_⟩
      · intro e he
        simp only [List.mem_append] at he
        rcases he with he | he
        · exact ht e he
        · exact (hpre e he).2
      · rw [heq]
        simp only [List.append_assoc]

/-- Every run either ends before the PIN lookup, with no call from the PIN
lookup to the operations, or it consists of calls of the earlier stages
followed by the part of `main` that starts at the PIN lookup. -/
theorem main_reach (env : Env) (opts : List GetoptResult) :
    ((∀ e ∈ (main env opts).2, e.fn.stage < 7 ∨ 11 ≤ e.fn.stage) ∧
      ((main env opts).1 = Outcome.usage_die ∨ (main env opts).1 = Outcome.exit 1 ∨
        (main env opts).1 = Outcome.exit 2 ∨ (main env opts).1 = Outcome.exit 3)) ∨
    ∃ g pre key, getopt_loop opts Globals.init = some g ∧ (∀ e ∈ pre, e.fn.stage < 7) ∧
      main env opts =
        ((main_with_key env g key pre).1, pre ++ (main_with_key env g key pre).2) := by
  unfold main
  split
  · exact Or.inl ⟨by simp, Or.inl rfl⟩
  · next g hg =>
    rcases main_run_reach env g with h | ⟨pre, key, hpre, heq⟩
    · exact Or.inl h
    · exact Or.inr ⟨g, pre, key, hg, hpre, heq⟩

theorem get_pin_loop_abort (pinfo : sc_pkcs15_pin_info) (answers : List (List Nat)) (p : String)
    (h : Event.getpass p [] ∈ (get_pin_loop pinfo answers).2) :
    (get_pin_loop pinfo answers).1 = some none := by
  induction answers with
  | nil => simp [get_pin_loop] at h
  | cons a rest ih =>
    rw [get_pin_loop] at h ⊢
    split_ifs at h ⊢ with h0 hr
    · rfl
    · simp only [List.mem_cons] at h
      rcases h with h | h
      · injection h with _ ha
        subst ha
        simp at h0
      · exact ih h
    · simp only [List.mem_singleton] at h
      injection h with _ ha
      subst ha
      simp at h0

theorem get_pin_abort (env : Env) (g : Globals) (pinfo : sc_pkcs15_pin_info) (p : String)
    (h : Event.getpass p [] ∈ (get_pin env g pinfo).2) :
    (get_pin env g pinfo).1 = some none := by
  unfold get_pin at h ⊢
  split at h
  · simp at h
  · exact get_pin_loop_abort pinfo env.getpass p h

/-- Every run is of one of three kinds: no verification and no operation call
is made; the one verification fails and the releases follow; or the one
verification succeeds and the operations part of `main` follows. -/
theorem main_shape (env : Env) (opts : List GetoptResult) :
    ((∀ e ∈ (main env opts).2, e.fn.stage < 9 ∨ 11 ≤ e.fn.stage) ∧
      (main env opts).1 ≠ Outcome.exit 0 ∧
      (∀ p, Event.getpass p [] ∈ (main env opts).2 → (main env opts).1 = Outcome.exit 5)) ∨
    ∃ g A pin code, getopt_loop opts Globals.init = some g ∧ (∀ e ∈ A, e.fn.stage < 9) ∧
      (∀ p, Event.getpass p [] ∉ A) ∧ (get_pin env g pin).1 = some (some code) ∧
      ((env.sc_pkcs15_verify_pin pin code code.length ≠ 0 ∧
          main env opts = (Outcome.exit 5,
            A ++ Event.sc_pkcs15_verify_pin pin code code.length
              (env.sc_pkcs15_verify_pin pin code code.length) :: main_end true true true)) ∨
        (env.sc_pkcs15_verify_pin pin code code.length = 0 ∧
          ∃ key, main env opts =
            ((main_ops env g key
                (A ++ [Event.sc_pkcs15_verify_pin pin code code.length 0])).1,
              A ++ Event.sc_pkcs15_verify_pin pin code code.length 0 ::
                (main_ops env g key
                  (A ++ [Event.sc_pkcs15_verify_pin pin code code.length 0])).2))) := by
  rcases main_reach env opts with ⟨hev, ho⟩ | ⟨g, pre, key, hg, hpre, heq⟩
  · left
    refine ⟨?_, ?_, ?_⟩
    · intro e he
      rcases hev e he with h | h
      · left; omega
      · right; exact h
    · rcases ho with ho | ho | ho | ho <;> rw [ho] <;> simp
    · intro p hp
      rcases hev _ hp with h | h <;> simp [Event.fn, Fn.stage] at h
  · have hpin := get_pin_fn env g (env.sc_pkcs15_find_pin_by_auth_id key.auth_id).2
    have hab := get_pin_abort env g (env.sc_pkcs15_find_pin_by_auth_id key.auth_id).2
    have hrel := main_end_release true true true
    have hpre9 : ∀ e ∈ pre ++ Event.sc_pkcs15_find_pin_by_auth_id key.auth_id
          (env.sc_pkcs15_find_pin_by_auth_id key.auth_id).1 ::
          (get_pin env g (env.sc_pkcs15_find_pin_by_auth_id key.auth_id).2).2,
        e.fn.stage < 9 := by
      intro e he
      simp only [List.mem_append, List.mem_cons] at he
      rcases he with he | rfl | he
      · have := hpre e he; omega
      · simp [Event.fn, Fn.stage]
      · rw [hpin e he]; decide
    rcases main_with_key_cases env g key pre with
      ⟨h1, hw⟩ | ⟨h1, hgp, hw⟩ | ⟨h1, hgp, hw⟩ | ⟨code, h1, hgp, hv, hw⟩ | ⟨code, h1, hgp, hv, hw⟩
    · left
      rw [heq, hw]
      refine ⟨?_, by simp, ?_⟩
      · intro e he
        simp only [List.mem_append, List.mem_cons] at he
        rcases he with he | rfl | he
        · left; have := hpre e he; omega
        · left; simp [Event.fn, Fn.stage]
        · right; exact hrel e he
      · intro p hp
        simp only [List.mem_append, List.mem_cons] at hp
        rcases hp with hp | hp | hp
        · have := hpre _ hp; simp [Event.fn, Fn.stage] at this
        · simp at hp
        · have := hrel _ hp; simp [Event.fn, Fn.stage] at this
    · left
      rw [heq, hw]
      refine ⟨?_, by simp, ?_⟩
      · intro e he
        exact Or.inl (hpre9 e he)
      · intro p hp
        simp only [List.mem_append, List.mem_cons] at hp
        rcases hp with hp | hp | hp
        · have := hpre _ hp; simp [Event.fn, Fn.stage] at this
        · simp at hp
        · have := hab p hp
          rw [hgp] at this
          simp at this
    · left
      rw [heq, hw]
      refine ⟨?_, by simp, ?_⟩
      · intro e he
        simp only [List.mem_append, List.mem_cons] at he
        rcases he with he | (he | he) | he
        · exact Or.inl (hpre9 e (List.mem_append_left _ he))
        · exact Or.inl (hpre9 e (List.mem_append_right _ (by rw [he]; exact List.mem_cons_self _ _)))
        · exact Or.inl (hpre9 e (List.mem_append_right _ (List.mem_cons_of_mem _ he)))
        · right; exact hrel e he
      · intro p hp
        rfl
    · right
      refine ⟨g, _, _, code, hg, hpre9, ?_, hgp, Or.inl ⟨hv, ?_⟩⟩
      · intro p hp
        simp only [List.mem_append, List.mem_cons] at hp
        rcases hp with hp | hp | hp
        · have := hpre _ hp; simp [Event.fn, Fn.stage] at this
        · simp at hp
        · have := hab p hp
          rw [hgp] at this
          simp at this
      · rw [heq, hw]
        simp
    · right
      refine ⟨g, _, _, code, hg, hpre9, ?_, hgp, Or.inr ⟨hv, key, ?_⟩⟩
      · intro p hp
        simp only [List.mem_append, List.mem_cons] at hp
        rcases hp with hp | hp | hp
        · have := hpre _ hp; simp [Event.fn, Fn.stage] at this
        · simp at hp
        · have := hab p hp
          rw [hgp] at this
          simp at this
      · rw [heq, hw]
        simp

theorem mem_before_of_split {α : Type} (P : α → Prop) (v : α) (B : List α) (hv : ¬ P v) :
    ∀ (A : List α), (∀ a ∈ A, ¬ P a) →
      ∀ (pre : List α) (e : α) (post : List α), A ++ v :: B = pre ++ e :: post → P e → v ∈ pre := by
  intro A
  induction A with
  | nil =>
    intro _ pre e post h he
    cases pre with
    | nil =>
      simp only [List.nil_append, List.cons.injEq] at h
      exact absurd (h.1 ▸ he) hv
    | cons x p =>
      simp only [List.nil_append, List.cons_append, List.cons.injEq] at h
      rw [h.1]
      exact List.mem_cons_self _ _
  | cons a A ih =>
    intro hA pre e post h he
    cases pre with
    | nil =>
      simp only [List.nil_append, List.cons_append, List.cons.injEq] at h
      exact absurd (h.1 ▸ he) (hA a (List.mem_cons_self _ _))
    | cons x p =>
      simp only [List.cons_append, List.cons.injEq] at h
      exact List.mem_cons_of_mem _
        (ih (fun b hb => hA b (List.mem_cons_of_mem _ hb)) p e post h.2 he)

theorem stage_of_crypto (f : Fn) (h : f.is_crypto = true) : f.stage = 10 := by
  cases f <;> simp [Fn.is_crypto] at h <;> rfl

theorem count_eq_zero_of_stage (tr : List Event) (f : Fn)
    (h : ∀ e ∈ tr, e.fn.stage ≠ f.stage) : (calls tr).count f = 0 := by
  rw [List.count_eq_zero]
  intro hf
  obtain ⟨e, he, rfl⟩ := List.mem_map.1 hf
  exact h e he rfl

theorem calls_append (a b : List Event) : calls (a ++ b) = calls a ++ calls b := by
  simp [calls]

theorem calls_cons (e : Event) (b : List Event) : calls (e :: b) = e.fn :: calls b := by
  simp [calls]

/-- In a list made of calls of the stages before verification, one verification
call, and calls of later stages, the verification call is the only one. -/
theorem verify_unique (A B : List Event) (v : Event) (hv : v.fn = Fn.sc_pkcs15_verify_pin)
    (hA : ∀ e ∈ A, e.fn.stage < 9) (hB : ∀ e ∈ B, 10 ≤ e.fn.stage) :
    (calls (A ++ v :: B)).count Fn.sc_pkcs15_verify_pin = 1 ∧
    (∀ e ∈ A ++ v :: B, e.fn = Fn.sc_pkcs15_verify_pin → e = v) ∧
    (∀ e ∈ A ++ v :: B, e.fn.stage < 9 → e ∈ A) := by
  refine ⟨?_, ?_, ?_⟩
  · rw [calls_append, calls_cons, List.count_append, List.count_cons, hv,
      count_eq_zero_of_stage A, count_eq_zero_of_stage B]
    · simp
    · intro e he h
      have := hB e he
      rw [h] at this
      simp [Fn.stage] at this
    · intro e he h
      have := hA e he
      rw [h] at this
      simp [Fn.stage] at this
  · intro e he hf
    simp only [List.mem_append, List.mem_cons] at he
    rcases he with he | he | he
    · have := hA e he
      rw [hf] at this
      simp [Fn.stage] at this
    · exact he
    · have := hB e he
      rw [hf] at this
      simp [Fn.stage] at this
  · intro e he hs
    simp only [List.mem_append, List.mem_cons] at he
    rcases he with he | he | he
    · exact he
    · rw [he, hv] at hs
      simp [Fn.stage] at hs
    · have := hB e he
      omega

theorem count_eq_zero_of_fn (tr : List Event) (f : Fn) (h : ∀ e ∈ tr, e.fn ≠ f) :
    (calls tr).count f = 0 := by
  rw [List.count_eq_zero]
  intro hf
  obtain ⟨e, he, rfl⟩ := List.mem_map.1 hf
  exact h e he rfl

theorem read_input_count (env : Env) (g : Globals) (n : Nat) (hist : List Event) (f : Fn)
    (hf : f ≠ Fn.fopen_r) : (calls (read_input env g n hist).2.2).count f = 0 := by
  apply count_eq_zero_of_fn
  intro e he h
  exact hf (h ▸ read_input_events env g n hist e he)

theorem write_output_count (env : Env) (g : Globals) (buf : List Nat) (len : Int)
    (hist : List Event) (f : Fn) (hf : f.is_crypto = true) :
    (calls (write_output env g buf len hist).2).count f = 0 := by
  apply count_eq_zero_of_fn
  intro e he h
  rcases write_output_events env g buf len hist e he with h' | h' | h' <;>
    (rw [h'] at h; subst h; simp [Fn.is_crypto] at hf)

/-- When `sign` returns 0 it has called `sc_pkcs15_compute_signature` exactly
once. -/
theorem sign_zero_count (env : Env) (g : Globals) (key : sc_pkcs15_prkey_info)
    (hist : List Event) (h : (sign env g key hist).1 = 0) :
    (calls (sign env g key hist).2).count Fn.sc_pkcs15_compute_signature = 1 := by
  have hr := read_input_count env g 1024 hist Fn.sc_pkcs15_compute_signature (by decide)
  have hw := fun buf len hist => write_output_count env g buf len hist Fn.sc_pkcs15_compute_signature (by decide)
  simp only [sign] at h ⊢
  split_ifs at h ⊢
  all_goals first
    | (exfalso; simp at h; done)
    | (simp only [calls_append, calls_cons, List.count_append, List.count_cons, hr, hw]
       simp [calls, Event.fn])

theorem decipher_zero_count (env : Env) (g : Globals) (key : sc_pkcs15_prkey_info)
    (hist : List Event) (h : (decipher env g key hist).1 = 0) :
    (calls (decipher env g key hist).2).count Fn.sc_pkcs15_decipher = 1 := by
  have hr := read_input_count env g 1024 hist Fn.sc_pkcs15_decipher (by decide)
  have hw := fun buf len hist => write_output_count env g buf len hist Fn.sc_pkcs15_decipher (by decide)
  simp only [decipher] at h ⊢
  split_ifs at h ⊢
  all_goals first
    | (exfalso; simp at h; done)
    | (simp only [calls_append, calls_cons, List.count_append, List.count_cons, hr, hw]
       simp [calls, Event.fn])

theorem sign_count_decipher (env : Env) (g : Globals) (key : sc_pkcs15_prkey_info)
    (hist : List Event) : (calls (sign env g key hist).2).count Fn.sc_pkcs15_decipher = 0 := by
  apply count_eq_zero_of_fn
  intro e he h
  rcases sign_events env g key hist e he with h' | h' | h' | h' | ⟨_, _, _, rfl⟩ <;>
    first
    | (rw [h'] at h; exact absurd h (by decide))
    | simp [Event.fn] at h

theorem decipher_count_sign (env : Env) (g : Globals) (key : sc_pkcs15_prkey_info)
    (hist : List Event) :
    (calls (decipher env g key hist).2).count Fn.sc_pkcs15_compute_signature = 0 := by
  apply count_eq_zero_of_fn
  intro e he h
  rcases decipher_events env g key hist e he with h' | h' | h' | h' | ⟨_, _, _, rfl⟩ <;>
    first
    | (rw [h'] at h; exact absurd h (by decide))
    | simp [Event.fn] at h

theorem main_end_count (a b c : Bool) (f : Fn) (hf : f.is_crypto = true) :
    (calls (main_end a b c)).count f = 0 := by
  apply count_eq_zero_of_fn
  intro e he h
  have := main_end_release a b c e he
  rw [h, stage_of_crypto f hf] at this
  omega

/-- When the operations part of `main` ends with status 0, each selected
operation has called its primitive exactly once and no other primitive call was
made. -/
theorem main_ops_zero_count (env : Env) (g : Globals) (key : sc_pkcs15_prkey_info)
    (hist : List Event) (h : (main_ops env g key hist).1 = Outcome.exit 0) :
    (calls (main_ops env g key hist).2).count Fn.sc_pkcs15_decipher =
        (if g.do_decipher ≠ 0 then 1 else 0) ∧
    (calls (main_ops env g key hist).2).count Fn.sc_pkcs15_compute_signature =
        (if g.do_sign ≠ 0 then 1 else 0) := by
  simp only [main_ops, main_sign_stage] at h ⊢
  split_ifs at h ⊢ with hd hd1 hs hs1 hs hs1
  all_goals first
    | (exfalso; simp at h; omega)
    | (simp only [calls_append, List.count_append,
        main_end_count _ _ _ Fn.sc_pkcs15_decipher (by decide),
        main_end_count _ _ _ Fn.sc_pkcs15_compute_signature (by decide),
        sign_count_decipher, decipher_count_sign]
       simp only [ne_eq, not_not] at *
       simp [*, sign_zero_count, decipher_zero_count])

theorem crypto_calls_length (l : List Fn) :
    (l.filter Fn.is_crypto).length =
      l.count Fn.sc_pkcs15_decipher + l.count Fn.sc_pkcs15_compute_signature := by
  induction l with
  | nil => rfl
  | cons f l ih =>
    cases f <;> simp [List.filter_cons, Fn.is_crypto, List.count_cons, ih] <;> omega

theorem main_bound_stage_ge (env : Env) (g : Globals) (hist : List Event) :
    ∀ e ∈ (main_bound env g hist).2, 4 ≤ e.fn.stage := by
  intro e he
  rcases main_bound_reach env g hist with ⟨hev, -⟩ | ⟨pre, key, hpre, heq⟩
  · simp only [main_bound] at he hev
    split_ifs at he hev
    · simp only [List.mem_append, List.mem_singleton] at he
      rcases he with rfl | he
      · simp [Event.fn, Fn.stage]
      · have := main_end_release _ _ _ e he; omega
    · split at he
      · split_ifs at he
        · simp only [List.mem_append, List.mem_cons, List.mem_singleton, List.mem_nil_iff,
            or_false] at he
          rcases he with (rfl | rfl | rfl) | he
          · simp [Event.fn, Fn.stage]
          · simp [Event.fn, Fn.stage]
          · simp [Event.fn, Fn.stage]
          · have := main_end_release _ _ _ e he; omega
        · simp only [List.mem_append, List.mem_cons, List.mem_singleton, List.mem_nil_iff,
            or_false] at he
          rcases he with (rfl | rfl | rfl) | he
          · simp [Event.fn, Fn.stage]
          · simp [Event.fn, Fn.stage]
          · simp [Event.fn, Fn.stage]
          · have := main_with_key_stage_ge _ _ _ _ e he; omega
      · simp only [List.mem_append, List.mem_singleton] at he
        rcases he with rfl | he
        · simp [Event.fn, Fn.stage]
        · have := main_with_key_stage_ge _ _ _ _ e he; omega
  · rw [heq] at he
    simp only [List.mem_append] at he
    rcases he with he | he
    · exact (hpre e he).1
    · have := main_with_key_stage_ge _ _ _ _ e he; omega

theorem not_mem_calls_of_stage (tr : List Event) (f : Fn) (h : ∀ e ∈ tr, e.fn.stage ≠ f.stage) :
    f ∉ calls tr := by
  intro hf
  obtain ⟨e, he, rfl⟩ := List.mem_map.1 hf
  exact h e he rfl

theorem crypto_of_crypto_key (e : Event) (k : sc_pkcs15_prkey_info)
    (h : e.crypto_key = some k) : e.fn.stage = 10 := by
  cases e <;> simp [Event.crypto_key] at h <;> rfl

theorem sign_keyed (env : Env) (g : Globals) (key : sc_pkcs15_prkey_info) (hist : List Event) :
    ∀ e ∈ (sign env g key hist).2, ∀ k, e.crypto_key = some k → k = key := by
  intro e he k hk
  rcases sign_events env g key hist e he with h | h | h | h | ⟨_, _, _, rfl⟩
  · cases e <;> simp [Event.crypto_key] at hk <;> simp [Event.fn] at h
  · cases e <;> simp [Event.crypto_key] at hk <;> simp [Event.fn] at h
  · cases e <;> simp [Event.crypto_key] at hk <;> simp [Event.fn] at h
  · cases e <;> simp [Event.crypto_key] at hk <;> simp [Event.fn] at h
  · simp [Event.crypto_key] at hk
    exact hk.symm

theorem decipher_keyed (env : Env) (g : Globals) (key : sc_pkcs15_prkey_info)
    (hist : List Event) :
    ∀ e ∈ (decipher env g key hist).2, ∀ k, e.crypto_key = some k → k = key := by
  intro e he k hk
  rcases decipher_events env g key hist e he with h | h | h | h | ⟨_, _, _, rfl⟩
  · cases e <;> simp [Event.crypto_key] at hk <;> simp [Event.fn] at h
  · cases e <;> simp [Event.crypto_key] at hk <;> simp [Event.fn] at h
  · cases e <;> simp [Event.crypto_key] at hk <;> simp [Event.fn] at h
  · cases e <;> simp [Event.crypto_key] at hk <;> simp [Event.fn] at h
  · simp [Event.crypto_key] at hk
    exact hk.symm

theorem main_end_keyed (a b c : Bool) (key : sc_pkcs15_prkey_info) :
    ∀ e ∈ main_end a b c, ∀ k, e.crypto_key = some k → k = key := by
  intro e he k hk
  have h1 := main_end_release a b c e he
  have h2 := crypto_of_crypto_key e k hk
  omega

theorem main_ops_keyed (env : Env) (g : Globals) (key : sc_pkcs15_prkey_info)
    (hist : List Event) :
    ∀ e ∈ (main_ops env g key hist).2, ∀ k, e.crypto_key = some k → k = key := by
  intro e he k hk
  simp only [main_ops, main_sign_stage] at he
  split_ifs at he <;> simp only [List.mem_append] at he
  all_goals
    first
    | exact main_end_keyed _ _ _ key e he k hk
    | (rcases he with he | he | he
       · first
         | exact decipher_keyed _ _ _ _ e he k hk
         | exact sign_keyed _ _ _ _ e he k hk
       · first
         | exact sign_keyed _ _ _ _ e he k hk
         | exact main_end_keyed _ _ _ key e he k hk
       · exact main_end_keyed _ _ _ key e he k hk)
    | (rcases he with he | he
       · first
         | exact decipher_keyed _ _ _ _ e he k hk
         | exact sign_keyed _ _ _ _ e he k hk
       · exact main_end_keyed _ _ _ key e he k hk)

/-- The part of `main` after key resolution starts with the PIN lookup for the
key, and every primitive call it makes is on that key. -/
theorem main_with_key_keyed (env : Env) (g : Globals) (key : sc_pkcs15_prkey_info)
    (hist : List Event) :
    (∃ rest, (main_with_key env g key hist).2 =
      Event.sc_pkcs15_find_pin_by_auth_id key.auth_id
        (env.sc_pkcs15_find_pin_by_auth_id key.auth_id).1 :: rest) ∧
    ∀ e ∈ (main_with_key env g key hist).2, ∀ k, e.crypto_key = some k → k = key := by
  have hpin := get_pin_fn env g (env.sc_pkcs15_find_pin_by_auth_id key.auth_id).2
  have hgk : ∀ e ∈ (get_pin env g (env.sc_pkcs15_find_pin_by_auth_id key.auth_id).2).2,
      ∀ k, e.crypto_key = some k → k = key := by
    intro e he k hk
    have h1 := hpin e he
    have h2 := crypto_of_crypto_key e k hk
    rw [h1] at h2
    simp [Fn.stage] at h2
  rcases main_with_key_cases env g key hist with
    ⟨h1, hw⟩ | ⟨h1, hgp, hw⟩ | ⟨h1, hgp, hw⟩ | ⟨code, h1, hgp, hv, hw⟩ | ⟨code, h1, hgp, hv, hw⟩
  all_goals
    rw [hw]
    refine ⟨⟨_, by simp [h1]; rfl⟩, ?_⟩
    intro e he k hk
    simp only [List.mem_append, List.mem_cons] at he
  · rcases he with rfl | he
    · simp [Event.crypto_key] at hk
    · exact main_end_keyed _ _ _ key e he k hk
  · rcases he with rfl | he
    · simp [Event.crypto_key] at hk
    · exact hgk e he k hk
  · rcases he with (rfl | he) | he
    · simp [Event.crypto_key] at hk
    · exact hgk e he k hk
    · exact main_end_keyed _ _ _ key e he k hk
  · rcases he with (rfl | he) | rfl | he
    · simp [Event.crypto_key] at hk
    · exact hgk e he k hk
    · simp [Event.crypto_key] at hk
    · exact main_end_keyed _ _ _ key e he k hk
  · rcases he with (rfl | he) | rfl | he
    · simp [Event.crypto_key] at hk
    · exact hgk e he k hk
    · simp [Event.crypto_key] at hk
    · exact main_ops_keyed _ _ _ _ e he k hk

/-- The calls of a run up to and including a successful catalog binding. -/
theorem main_run_bound (env : Env) (g : Globals) (hac : g.action_count ≠ 0)
    (hctx : env.sc_establish_context = 0)
    (hrd : 0 ≤ g.opt_reader ∧ g.opt_reader < env.reader_count)
    (hdet : env.sc_detect_card g.opt_reader = 1)
    (hcon : env.sc_connect_card g.opt_reader = 0) (hbind : env.sc_pkcs15_bind = 0) :
    main_run env g =
      ((main_bound env g [Event.sc_establish_context 0, Event.sc_detect_card g.opt_reader 1,
          Event.sc_connect_card g.opt_reader 0, Event.sc_pkcs15_bind 0]).1,
        [Event.sc_establish_context 0, Event.sc_detect_card g.opt_reader 1,
          Event.sc_connect_card g.opt_reader 0, Event.sc_pkcs15_bind 0] ++
        (main_bound env g [Event.sc_establish_context 0, Event.sc_detect_card g.opt_reader 1,
          Event.sc_connect_card g.opt_reader 0, Event.sc_pkcs15_bind 0]).2) := by
  have hr' : ¬ (g.opt_reader ≥ env.reader_count ∨ g.opt_reader < 0) := by
    intro h
    rcases h with h | h <;> omega
  simp [main_run, hac, hctx, hr', hdet, hcon, hbind]

theorem getopt_case_action_count (g : Globals) (c : GetoptResult)
    (h : g.do_sign + g.do_decipher ≤ g.action_count) :
    (getopt_case g c).do_sign + (getopt_case g c).do_decipher ≤ (getopt_case g c).action_count := by
  cases c <;> simp only [getopt_case] <;> omega

/-- Every `-s` and `-c` handled by the option loop is counted in `action_count`. -/
theorem getopt_loop_action_count (opts : List GetoptResult) :
    ∀ g0 g, getopt_loop opts g0 = some g → g0.do_sign + g0.do_decipher ≤ g0.action_count →
      g.do_sign + g.do_decipher ≤ g.action_count := by
  induction opts with
  | nil =>
    intro g0 g h h0
    simp only [getopt_loop, Option.some.injEq] at h
    subst h
    exact h0
  | cons c rest ih =>
    intro g0 g h h0
    simp only [getopt_loop] at h
    split_ifs at h
    exact ih _ _ h (getopt_case_action_count g0 c h0)

theorem read_input_ok (env : Env) (g : Globals) (n : Nat) (hist : List Event) (inpath : String)
    (content : List Nat) (hin : g.opt_input = some inpath)
    (hread : env.fopen_r hist inpath = some content) :
    read_input env g n hist =
      (((content.take n).length : Int), content.take n, [Event.fopen_r inpath true]) := by
  simp only [read_input, hin, hread]
  rw [if_neg]
  omega

/-- Behaviour of `sign` on an input file that opens: the primitive is called on the first
1024 bytes of the file, and the status depends only on what the primitive
returns. -/
theorem sign_on_input (env : Env) (g : Globals) (key : sc_pkcs15_prkey_info)
    (hist : List Event) (inpath outpath : String) (content : List Nat)
    (hin : g.opt_input = some inpath) (hout : g.opt_output = some outpath)
    (hread : env.fopen_r hist inpath = some content) :
    sign env g key hist =
      if (env.sc_pkcs15_compute_signature key g.opt_hash_type (content.take 1024)
            ((content.take 1024).length : Int)).1 < 0 then
        (1, [Event.fopen_r inpath true,
          Event.sc_pkcs15_compute_signature key g.opt_hash_type (content.take 1024)
            ((content.take 1024).length : Int) 1024
            (env.sc_pkcs15_compute_signature key g.opt_hash_type (content.take 1024)
              ((content.take 1024).length : Int)).1])
      else
        (0, [Event.fopen_r inpath true,
          Event.sc_pkcs15_compute_signature key g.opt_hash_type (content.take 1024)
            ((content.take 1024).length : Int) 1024
            (env.sc_pkcs15_compute_signature key g.opt_hash_type (content.take 1024)
              ((content.take 1024).length : Int)).1] ++
          (write_output env g
            (env.sc_pkcs15_compute_signature key g.opt_hash_type (content.take 1024)
              ((content.take 1024).length : Int)).2
            (env.sc_pkcs15_compute_signature key g.opt_hash_type (content.take 1024)
              ((content.take 1024).length : Int)).1
            (hist ++ [Event.fopen_r inpath true,
              Event.sc_pkcs15_compute_signature key g.opt_hash_type (content.take 1024)
                ((content.take 1024).length : Int) 1024
                (env.sc_pkcs15_compute_signature key g.opt_hash_type (content.take 1024)
                  ((content.take 1024).length : Int)).1])).2) := by
  have h1 : ¬ g.opt_input = none := by simp [hin]
  have h2 : ¬ g.opt_output = none := by simp [hout]
  have h3 : ¬ (((content.take 1024).length : Int) < 0) := by omega
  simp only [sign, if_neg h1, if_neg h2, read_input_ok env g 1024 hist inpath content hin hread,
    if_neg h3]
  split_ifs <;> simp

theorem decipher_on_input (env : Env) (g : Globals) (key : sc_pkcs15_prkey_info)
    (hist : List Event) (inpath : String) (content : List Nat)
    (hin : g.opt_input = some inpath)
    (hread : env.fopen_r hist inpath = some content) :
    decipher env g key hist =
      if (env.sc_pkcs15_decipher key (content.take 1024)
            ((content.take 1024).length : Int)).1 < 0 then
        (1, [Event.fopen_r inpath true,
          Event.sc_pkcs15_decipher key (content.take 1024)
            ((content.take 1024).length : Int) 1024
            (env.sc_pkcs15_decipher key (content.take 1024)
              ((content.take 1024).length : Int)).1])
      else
        (0, [Event.fopen_r inpath true,
          Event.sc_pkcs15_decipher key (content.take 1024)
            ((content.take 1024).length : Int) 1024
            (env.sc_pkcs15_decipher key (content.take 1024)
              ((content.take 1024).length : Int)).1] ++
          (write_output env g
            (env.sc_pkcs15_decipher key (content.take 1024)
              ((content.take 1024).length : Int)).2
            (env.sc_pkcs15_decipher key (content.take 1024)
              ((content.take 1024).length : Int)).1
            (hist ++ [Event.fopen_r inpath true,
              Event.sc_pkcs15_decipher key (content.take 1024)
                ((content.take 1024).length : Int) 1024
                (env.sc_pkcs15_decipher key (content.take 1024)
                  ((content.take 1024).length : Int)).1])).2) := by
  have h1 : ¬ g.opt_input = none := by simp [hin]
  have h3 : ¬ (((content.take 1024).length : Int) < 0) := by omega
  simp only [decipher, if_neg h1, read_input_ok env g 1024 hist inpath content hin hread,
    if_neg h3]
  split_ifs <;> simp

theorem not_release_of_stage (f : Fn) (h : f.stage ≤ 10) : f.is_release = false := by
  cases f <;> simp [Fn.stage] at h <;> rfl

theorem sign_stage_eq (env : Env) (g : Globals) (key : sc_pkcs15_prkey_info) (hist : List Event) :
    ∀ e ∈ (sign env g key hist).2, e.fn.stage ≤ 10 := by
  intro e he
  rcases sign_events env g key hist e he with h | h | h | h | ⟨_, _, _, rfl⟩ <;>
    first
    | (rw [h]; decide)
    | simp [Fn.stage, Event.fn]

theorem decipher_stage_eq (env : Env) (g : Globals) (key : sc_pkcs15_prkey_info)
    (hist : List Event) : ∀ e ∈ (decipher env g key hist).2, e.fn.stage ≤ 10 := by
  intro e he
  rcases decipher_events env g key hist e he with h | h | h | h | ⟨_, _, _, rfl⟩ <;>
    first
    | (rw [h]; decide)
    | simp [Fn.stage, Event.fn]

theorem release_calls_nil (l : List Event) (h : ∀ e ∈ l, e.fn.stage ≤ 10) :
    (calls l).filter Fn.is_release = [] := by
  rw [List.filter_eq_nil_iff]
  intro f hf
  obtain ⟨e, he, rfl⟩ := List.mem_map.1 hf
  simp [not_release_of_stage _ (h e he)]

theorem release_calls_cons (e : Event) (l : List Event) (h : e.fn.stage ≤ 10) :
    (calls (e :: l)).filter Fn.is_release = (calls l).filter Fn.is_release := by
  rw [calls_cons, List.filter_cons, not_release_of_stage _ h]
  simp

theorem release_calls_append (a b : List Event) :
    (calls (a ++ b)).filter Fn.is_release =
      (calls a).filter Fn.is_release ++ (calls b).filter Fn.is_release := by
  rw [calls_append, List.filter_append]

theorem release_calls_main_end (a b c : Bool) :
    (calls (main_end a b c)).filter Fn.is_release = calls (main_end a b c) := by
  cases a <;> cases b <;> cases c <;> rfl

/-- The operations part of `main` makes the three releases, once each and in
reverse order of acquisition. -/
theorem main_ops_release (env : Env) (g : Globals) (key : sc_pkcs15_prkey_info)
    (hist : List Event) :
    (∃ n, (main_ops env g key hist).1 = Outcome.exit n) ∧
    (calls (main_ops env g key hist).2).filter Fn.is_release =
      calls (main_end true true true) := by
  have hs := fun h => release_calls_nil _ (sign_stage_eq env g key h)
  have hd := release_calls_nil _ (decipher_stage_eq env g key hist)
  simp only [main_ops, main_sign_stage]
  split_ifs <;>
    simp only [release_calls_append, hs, hd, release_calls_main_end, List.nil_append] <;>
    exact ⟨⟨_, rfl⟩, trivial⟩

theorem main_with_key_release (env : Env) (g : Globals) (key : sc_pkcs15_prkey_info)
    (hist : List Event) (n : Int) (h : (main_with_key env g key hist).1 = Outcome.exit n) :
    (calls (main_with_key env g key hist).2).filter Fn.is_release =
      calls (main_end true true true) := by
  have hpin := get_pin_fn env g (env.sc_pkcs15_find_pin_by_auth_id key.auth_id).2
  have hgp : (calls (get_pin env g (env.sc_pkcs15_find_pin_by_auth_id key.auth_id).2).2).filter
      Fn.is_release = [] := by
    apply release_calls_nil
    intro e he
    rw [hpin e he]
    decide
  rcases main_with_key_cases env g key hist with
    ⟨h1, hw⟩ | ⟨h1, hgp', hw⟩ | ⟨h1, hgp', hw⟩ | ⟨code, h1, hgp', hv, hw⟩ | ⟨code, h1, hgp', hv, hw⟩
  · rw [hw]
    rw [release_calls_cons _ _ (by simp [Event.fn, Fn.stage]), release_calls_main_end]
  · rw [hw] at h
    simp at h
  · rw [hw]
    rw [release_calls_append, release_calls_cons _ _ (by simp [Event.fn, Fn.stage]), hgp,
      release_calls_main_end]
    rfl
  · rw [hw]
    rw [release_calls_append, release_calls_cons _ _ (by simp [Event.fn, Fn.stage]), hgp,
      release_calls_cons _ _ (by simp [Event.fn, Fn.stage]), release_calls_main_end]
    rfl
  · rw [hw]
    rw [release_calls_append, release_calls_cons _ _ (by simp [Event.fn, Fn.stage]), hgp,
      release_calls_cons _ _ (by simp [Event.fn, Fn.stage]), (main_ops_release _ _ _ _).2]
    rfl

theorem main_bound_release (env : Env) (g : Globals) (hist : List Event) (n : Int)
    (h : (main_bound env g hist).1 = Outcome.exit n) :
    (calls (main_bound env g hist).2).filter Fn.is_release =
      calls (main_end true true true) := by
  cases hk : g.opt_key_id with
  | none =>
    simp only [main_bound, hk] at h ⊢
    split_ifs at h ⊢
    · rw [release_calls_append, release_calls_main_end]
      rfl
    · rw [release_calls_append, main_with_key_release _ _ _ _ n h]
      rfl
  | some s =>
    simp only [main_bound, hk] at h ⊢
    split_ifs at h ⊢
    · rw [release_calls_append, release_calls_main_end]
      rfl
    · rw [release_calls_append, release_calls_append, release_calls_main_end]
      rfl
    · rw [release_calls_append, release_calls_append, main_with_key_release _ _ _ _ n h]
      rfl

/-- Scope of the release defect: in every run that establishes the context and
returns, other than through the card-absent return, the release calls made are
exactly those of the handles acquired, once each and in reverse order of
acquisition (unbind if bound, disconnect if connected, destroy). -/
theorem main_releases_acquired (env : Env) (opts : List GetoptResult) (g : Globals) (n : Int)
    (hg : getopt_loop opts Globals.init = some g)
    (hctx : env.sc_establish_context = 0)
    (hexit : (main env opts).1 = Outcome.exit n)
    (hcard : 0 ≤ g.opt_reader → g.opt_reader < env.reader_count →
      env.sc_detect_card g.opt_reader = 1) :
    (calls (main env opts).2).filter Fn.is_release =
      calls (main_end
          (decide (0 ≤ g.opt_reader ∧ g.opt_reader < env.reader_count ∧
            env.sc_connect_card g.opt_reader = 0 ∧ env.sc_pkcs15_bind = 0))
          (decide (0 ≤ g.opt_reader ∧ g.opt_reader < env.reader_count ∧
            env.sc_connect_card g.opt_reader = 0))
          true) := by
  have hm : main env opts = main_run env g := by
    simp [main, hg]
  rw [hm] at hexit ⊢
  simp only [main_run] at hexit ⊢
  split_ifs at hexit ⊢ with h0 h1 h2 h3 h4 h5
  · exact absurd hctx h1
  · have hr : ¬ (0 ≤ g.opt_reader ∧ g.opt_reader < env.reader_count) := by
      rcases h2 with h | h <;> omega
    have e1 : decide (0 ≤ g.opt_reader ∧ g.opt_reader < env.reader_count ∧
        env.sc_connect_card g.opt_reader = 0 ∧ env.sc_pkcs15_bind = 0) = false := by
      simp only [decide_eq_false_iff_not]
      intro h
      exact hr ⟨h.1, h.2.1⟩
    have e2 : decide (0 ≤ g.opt_reader ∧ g.opt_reader < env.reader_count ∧
        env.sc_connect_card g.opt_reader = 0) = false := by
      simp only [decide_eq_false_iff_not]
      intro h
      exact hr ⟨h.1, h.2.1⟩
    rw [e1, e2]
    rfl
  · exfalso
    have hr : 0 ≤ g.opt_reader ∧ g.opt_reader < env.reader_count := by
      constructor <;> omega
    exact h3 (hcard hr.1 hr.2)
  · have hr : 0 ≤ g.opt_reader ∧ g.opt_reader < env.reader_count := by
      constructor <;> omega
    have e1 : decide (0 ≤ g.opt_reader ∧ g.opt_reader < env.reader_count ∧
        env.sc_connect_card g.opt_reader = 0 ∧ env.sc_pkcs15_bind = 0) = false := by
      simp only [decide_eq_false_iff_not]
      intro h
      exact h4 h.2.2.1
    have e2 : decide (0 ≤ g.opt_reader ∧ g.opt_reader < env.reader_count ∧
        env.sc_connect_card g.opt_reader = 0) = false := by
      simp only [decide_eq_false_iff_not]
      intro h
      exact h4 h.2.2
    rw [e1, e2]
    rfl
  · have hr : 0 ≤ g.opt_reader ∧ g.opt_reader < env.reader_count := by
      constructor <;> omega
    have e1 : decide (0 ≤ g.opt_reader ∧ g.opt_reader < env.reader_count ∧
        env.sc_connect_card g.opt_reader = 0 ∧ env.sc_pkcs15_bind = 0) = false := by
      simp only [decide_eq_false_iff_not]
      intro h
      exact h5 h.2.2.2
    have e2 : decide (0 ≤ g.opt_reader ∧ g.opt_reader < env.reader_count ∧
        env.sc_connect_card g.opt_reader = 0) = true := by
      simp only [decide_eq_true_eq]
      exact ⟨hr.1, hr.2, not_not.1 h4⟩
    rw [e1, e2]
    rfl
  · have hr : 0 ≤ g.opt_reader ∧ g.opt_reader < env.reader_count := by
      constructor <;> omega
    have e1 : decide (0 ≤ g.opt_reader ∧ g.opt_reader < env.reader_count ∧
        env.sc_connect_card g.opt_reader = 0 ∧ env.sc_pkcs15_bind = 0) = true := by
      simp only [decide_eq_true_eq]
      exact ⟨hr.1, hr.2, not_not.1 h4, not_not.1 h5⟩
    have e2 : decide (0 ≤ g.opt_reader ∧ g.opt_reader < env.reader_count ∧
        env.sc_connect_card g.opt_reader = 0) = true := by
      simp only [decide_eq_true_eq]
      exact ⟨hr.1, hr.2, not_not.1 h4⟩
    rw [e1, e2, release_calls_append, main_bound_release _ _ _ n hexit]
    rfl

/-! ## The claims -/

/-- C1: the run with an in-range reader and no card in it.  `main` returns 3
right after `sc_detect_card`, without passing through the release code, so the
established context is never destroyed and no release call is made at all; the
neighbouring failure (reader number out of range) does release the context. -/
theorem main_card_absent_skips_release :
    main env_no_card opts_sign =
      (Outcome.exit 3, [Event.sc_establish_context 0, Event.sc_detect_card 0 0]) ∧
    (calls (main env_no_card opts_sign).2).filter Fn.is_release = [] ∧
    main env_ok [GetoptResult.sign, GetoptResult.reader 5] =
      (Outcome.exit 1, [Event.sc_establish_context 0, Event.sc_destroy_context]) := by
  decide

/-- C2: in every run, `sc_pkcs15_verify_pin` is called at most once, on the PIN
that `get_pin` returned and with its length; a cryptographic primitive is called
only after a verification call that returned 0; and if the PIN prompt aborts (an
empty answer) or the verification returns non-zero, no primitive is called and
the exit status is 5. -/
theorem main_verifies_once_before_crypto (env : Env) (opts : List GetoptResult) :
    (calls (main env opts).2).count Fn.sc_pkcs15_verify_pin ≤ 1 ∧
    (∀ pin code len r, Event.sc_pkcs15_verify_pin pin code len r ∈ (main env opts).2 →
      len = code.length ∧ r = env.sc_pkcs15_verify_pin pin code len ∧
      ∃ g, getopt_loop opts Globals.init = some g ∧ (get_pin env g pin).1 = some (some code)) ∧
    (∀ pre e post, (main env opts).2 = pre ++ e :: post → e.fn.is_crypto = true →
      ∃ pin code, Event.sc_pkcs15_verify_pin pin code code.length 0 ∈ pre) ∧
    (∀ prompt, Event.getpass prompt [] ∈ (main env opts).2 →
      (main env opts).1 = Outcome.exit 5 ∧ ∀ f ∈ calls (main env opts).2, f.is_crypto = false) ∧
    (∀ pin code len r, Event.sc_pkcs15_verify_pin pin code len r ∈ (main env opts).2 → r ≠ 0 →
      (main env opts).1 = Outcome.exit 5 ∧
        ∀ f ∈ calls (main env opts).2, f.is_crypto = false) := by
  have hnc : ∀ tr : List Event, (∀ e ∈ tr, e.fn.stage ≠ 10) →
      ∀ f ∈ calls tr, f.is_crypto = false := by
    intro tr h f hf
    obtain ⟨e, he, rfl⟩ := List.mem_map.1 hf
    cases hc : e.fn.is_crypto
    · rfl
    · exact absurd (stage_of_crypto _ hc) (h e he)
  rcases main_shape env opts with ⟨hev, hne, hgp⟩ |
    ⟨g, A, pin, code, hg, hA, hAg, hgpin, ⟨hv, heq⟩ | ⟨hv, key, heq⟩⟩
  · have hns : ∀ e ∈ (main env opts).2, e.fn.stage ≠ 9 ∧ e.fn.stage ≠ 10 := by
      intro e he
      rcases hev e he with h | h <;> omega
    refine ⟨?_, ?_, ?_, ?_, ?_⟩
    · rw [count_eq_zero_of_stage]
      · omega
      · intro e he
        exact (hns e he).1
    · intro pin code len r h
      exact absurd rfl (hns _ h).1
    · intro pre e post h hc
      have he : e ∈ (main env opts).2 := by rw [h]; simp
      exact absurd (stage_of_crypto _ hc) (hns e he).2
    · intro p hp
      exact ⟨hgp p hp, hnc _ (fun e he => (hns e he).2)⟩
    · intro pin code len r h
      exact absurd rfl (hns _ h).1
  · have hrel : ∀ e ∈ main_end true true true, 10 ≤ e.fn.stage := main_end_stage_ge _ _ _
    obtain ⟨hcount, huniq, hearly⟩ := verify_unique A (main_end true true true)
      (Event.sc_pkcs15_verify_pin pin code code.length
        (env.sc_pkcs15_verify_pin pin code code.length)) rfl hA hrel
    have hns : ∀ e ∈ (main env opts).2, e.fn.stage ≠ 10 := by
      intro e he
      rw [heq] at he
      simp only [List.mem_append, List.mem_cons] at he
      rcases he with he | rfl | he
      · have := hA e he; omega
      · simp [Event.fn, Fn.stage]
      · have := main_end_release _ _ _ e he; omega
    refine ⟨?_, ?_, ?_, ?_, ?_⟩
    · rw [heq, hcount]
    · intro pin' code' len r h
      rw [heq] at h
      have := huniq _ h rfl
      injection this with h1 h2 h3 h4
      subst h1 h2 h3 h4
      exact ⟨rfl, rfl, g, hg, hgpin⟩
    · intro pre e post h hc
      have he : e ∈ (main env opts).2 := by rw [h]; simp
      exact absurd (stage_of_crypto _ hc) (hns e he)
    · intro p hp
      rw [heq] at hp
      have := hearly _ hp (by simp [Event.fn, Fn.stage])
      exact absurd this (hAg p)
    · intro pin' code' len r h hr
      exact ⟨by rw [heq], hnc _ hns⟩
  · have hops := main_ops_stage_ge env g key
      (A ++ [Event.sc_pkcs15_verify_pin pin code code.length 0])
    obtain ⟨hcount, huniq, hearly⟩ := verify_unique A _
      (Event.sc_pkcs15_verify_pin pin code code.length 0) rfl hA hops
    refine ⟨?_, ?_, ?_, ?_, ?_⟩
    · rw [heq, hcount]
    · intro pin' code' len r h
      rw [heq] at h
      have := huniq _ h rfl
      injection this with h1 h2 h3 h4
      subst h1 h2 h3 h4
      exact ⟨rfl, hv.symm, g, hg, hgpin⟩
    · intro pre e post h hc
      rw [heq] at h
      refine ⟨pin, code, ?_⟩
      refine mem_before_of_split (fun e : Event => e.fn.is_crypto = true) _ _ (by simp [Event.fn, Fn.is_crypto]) A ?_ pre e post h hc
      intro a ha hc'
      have := hA a ha
      rw [stage_of_crypto _ hc'] at this
      omega
    · intro p hp
      rw [heq] at hp
      have := hearly _ hp (by simp [Event.fn, Fn.stage])
      exact absurd this (hAg p)
    · intro pin' code' len r h hr
      rw [heq] at h
      have := huniq _ h rfl
      injection this with h1 h2 h3 h4
      exact absurd h4 hr

/-- Witness for C2: the card rejects the PIN; and, at the prompt, a too short
answer followed by an empty one. -/
theorem main_verifies_once_before_crypto_witness :
    (Event.sc_pkcs15_verify_pin ⟨"pin", 4, 8⟩ [49, 50] 2 1 ∈ (main env_wrong_pin opts_sign).2 ∧
      (main env_wrong_pin opts_sign).1 = Outcome.exit 5 ∧
      ∀ f ∈ calls (main env_wrong_pin opts_sign).2, f.is_crypto = false) ∧
    (Event.getpass "Enter PIN [pin]: " [] ∈ (main env_abort opts_prompt).2 ∧
      (main env_abort opts_prompt).1 = Outcome.exit 5 ∧
      ∀ f ∈ calls (main env_abort opts_prompt).2, f.is_crypto = false) :=
  ⟨⟨by decide,
      (main_verifies_once_before_crypto env_wrong_pin opts_sign).2.2.2.2
        ⟨"pin", 4, 8⟩ [49, 50] 2 1 (by decide) (by decide)⟩,
    ⟨by decide,
      (main_verifies_once_before_crypto env_abort opts_prompt).2.2.2.1
        "Enter PIN [pin]: " (by decide)⟩⟩

/-- Counterexample to C3 as stated: with both sign and decipher selected the run
returns 0 after two primitive calls. -/
theorem exit_zero_with_two_primitive_calls :
    ¬ ∀ (env : Env) (opts : List GetoptResult), (main env opts).1 = Outcome.exit 0 →
      ((calls (main env opts).2).filter Fn.is_crypto).length = 1 := by
  intro h
  have h2 := h env_ok opts_both (by decide)
  revert h2
  decide

/-- C3, as amended: in every run that returns exit status 0 and in which sign or
decipher is selected, the PIN was verified and each selected operation called
its primitive exactly once, with no other primitive call: one call when one
operation is selected, two (one decipher, one signature) when both are. -/
theorem main_exit_zero_calls (env : Env) (opts : List GetoptResult) (g : Globals)
    (hg : getopt_loop opts Globals.init = some g)
    (hsel : g.do_sign ≠ 0 ∨ g.do_decipher ≠ 0)
    (h0 : (main env opts).1 = Outcome.exit 0) :
    (calls (main env opts).2).count Fn.sc_pkcs15_decipher =
        (if g.do_decipher ≠ 0 then 1 else 0) ∧
    (calls (main env opts).2).count Fn.sc_pkcs15_compute_signature =
        (if g.do_sign ≠ 0 then 1 else 0) ∧
    ((calls (main env opts).2).filter Fn.is_crypto).length =
        (if g.do_decipher ≠ 0 then 1 else 0) + (if g.do_sign ≠ 0 then 1 else 0) ∧
    ∃ pin code, Event.sc_pkcs15_verify_pin pin code code.length 0 ∈ (main env opts).2 := by
  rcases main_shape env opts with ⟨_, hne, _⟩ |
    ⟨g', A, pin, code, hg', hA, hAg, hgpin, ⟨hv, heq⟩ | ⟨hv, key, heq⟩⟩
  · exact absurd h0 hne
  · rw [heq] at h0
    simp at h0
  · have hgg : g' = g := by
      rw [hg] at hg'
      injection hg' with h
      exact h.symm
    subst hgg
    rw [heq] at h0
    obtain ⟨hcd, hcs⟩ := main_ops_zero_count env g' key _ h0
    have h1 : (calls (main env opts).2).count Fn.sc_pkcs15_decipher =
        (if g'.do_decipher ≠ 0 then 1 else 0) := by
      rw [heq]
      simp only [calls_append, calls_cons, List.count_append, List.count_cons, hcd]
      rw [count_eq_zero_of_stage A]
      · simp [Event.fn]
      · intro e he
        have := hA e he
        show e.fn.stage ≠ 10
        omega
    have h2 : (calls (main env opts).2).count Fn.sc_pkcs15_compute_signature =
        (if g'.do_sign ≠ 0 then 1 else 0) := by
      rw [heq]
      simp only [calls_append, calls_cons, List.count_append, List.count_cons, hcs]
      rw [count_eq_zero_of_stage A]
      · simp [Event.fn]
      · intro e he
        have := hA e he
        show e.fn.stage ≠ 10
        omega
    refine ⟨h1, h2, ?_, pin, code, ?_⟩
    · rw [crypto_calls_length, h1, h2]
    · rw [heq]
      simp

/-- Witness for the amended C3: sign alone. -/
theorem main_exit_zero_calls_witness :
    (main env_ok opts_sign).1 = Outcome.exit 0 ∧
    (calls (main env_ok opts_sign).2).count Fn.sc_pkcs15_decipher = 0 ∧
    (calls (main env_ok opts_sign).2).count Fn.sc_pkcs15_compute_signature = 1 ∧
    ((calls (main env_ok opts_sign).2).filter Fn.is_crypto).length = 1 ∧
    ∃ pin code, Event.sc_pkcs15_verify_pin pin code code.length 0 ∈ (main env_ok opts_sign).2 :=
  ⟨by decide, main_exit_zero_calls env_ok opts_sign _ rfl (Or.inl (by decide)) (by decide)⟩

/-- C4: `sc_connect_card` is attempted only on a reader number within
`0 <= opt_reader < reader_count` and right after `sc_detect_card` returned 1 for
it; an out-of-range reader number gives exit status 1 with neither detection nor
connect attempted; an in-range reader without a detected card gives exit status
3 with no connect attempted. -/
theorem main_connect_guarded (env : Env) (opts : List GetoptResult) :
    (∀ rd r, Event.sc_connect_card rd r ∈ (main env opts).2 →
      0 ≤ rd ∧ rd < env.reader_count ∧ env.sc_detect_card rd = 1 ∧
      (∃ g, getopt_loop opts Globals.init = some g ∧ rd = g.opt_reader) ∧
      ∃ rest, (main env opts).2 =
        Event.sc_establish_context 0 :: Event.sc_detect_card rd 1 ::
          Event.sc_connect_card rd r :: rest) ∧
    (∀ g, getopt_loop opts Globals.init = some g → g.action_count ≠ 0 →
      env.sc_establish_context = 0 →
      ((g.opt_reader < 0 ∨ env.reader_count ≤ g.opt_reader) →
        (main env opts).1 = Outcome.exit 1 ∧ Fn.sc_detect_card ∉ calls (main env opts).2 ∧
          Fn.sc_connect_card ∉ calls (main env opts).2) ∧
      (0 ≤ g.opt_reader → g.opt_reader < env.reader_count →
        env.sc_detect_card g.opt_reader ≠ 1 →
        (main env opts).1 = Outcome.exit 3 ∧ Fn.sc_connect_card ∉ calls (main env opts).2)) := by
  constructor
  · intro rd r h
    unfold main at h ⊢
    split at h
    · simp at h
    · next g hg =>
      simp only [main_run] at h ⊢
      have hb : ∀ hist, Event.sc_connect_card rd r ∉ (main_bound env g hist).2 := by
        intro hist hm
        have := main_bound_stage_ge env g hist _ hm
        simp [Event.fn, Fn.stage] at this
      split_ifs at h ⊢ with h0 h1 h2 h3 h4 h5
      · simp at h
      · simp at h
      · simp [main_end] at h
      · simp at h
      · simp [main_end] at h
        obtain ⟨rfl, rfl⟩ := h
        simp only [not_or, not_le, not_lt, ne_eq, not_not] at h1 h2 h3
        exact ⟨h2.2, h2.1, h3, ⟨g, hg, rfl⟩, by simp [h1, h3]⟩
      · simp [main_end] at h
        obtain ⟨rfl, rfl⟩ := h
        simp only [not_or, not_le, not_lt, ne_eq, not_not] at h1 h2 h3
        exact ⟨h2.2, h2.1, h3, ⟨g, hg, rfl⟩, by simp [h1, h3]⟩
      · simp only [List.mem_append, List.mem_singleton] at h
        simp only [not_or, not_le, not_lt, ne_eq, not_not] at h1 h2 h3
        rcases h with (((h | h) | h) | h) | h
        · simp at h
        · simp at h
        · injection h with ha hb'
          subst ha hb'
          exact ⟨h2.2, h2.1, h3, ⟨g, hg, rfl⟩, by simp [h1, h3]⟩
        · simp at h
        · exact absurd h (hb _)
  · intro g hg hac hctx
    have hm : main env opts = main_run env g := by
      simp [main, hg]
    rw [hm]
    constructor
    · intro hr
      have hr' : g.opt_reader ≥ env.reader_count ∨ g.opt_reader < 0 := by
        rcases hr with h | h
        · exact Or.inr h
        · exact Or.inl h
      simp [main_run, hac, hctx, hr', main_end, calls, Event.fn]
    · intro h1 h2 h3
      have hr' : ¬ (g.opt_reader ≥ env.reader_count ∨ g.opt_reader < 0) := by
        intro h
        rcases h with h | h <;> omega
      simp [main_run, hac, hctx, hr', h3, calls, Event.fn]

/-- Witness for C4: reader number 5 with one reader configured. -/
theorem main_connect_guarded_witness :
    (main env_ok [GetoptResult.sign, GetoptResult.reader 5]).1 = Outcome.exit 1 ∧
    Fn.sc_detect_card ∉ calls (main env_ok [GetoptResult.sign, GetoptResult.reader 5]).2 ∧
    Fn.sc_connect_card ∉ calls (main env_ok [GetoptResult.sign, GetoptResult.reader 5]).2 :=
  ((main_connect_guarded env_ok [GetoptResult.sign, GetoptResult.reader 5]).2 _ rfl
    (by decide) rfl).1 (Or.inr (by decide))

/-- C5: on a bound catalog, if `sc_pkcs15_enum_private_keys` returns a value
`<= 0` the run ends with exit status 1 and `sc_pkcs15_find_prkey_by_id` is not
called; otherwise, without a key id, no lookup by id is made and the PIN lookup
and every primitive call use the first enumerated key; with a key id, the lookup
by the parsed id is made, a negative result gives exit status 2 with no PIN
lookup, verification or primitive call, and otherwise the PIN lookup and every
primitive call use the key that lookup returned. -/
theorem main_key_resolution (env : Env) (opts : List GetoptResult) (g : Globals)
    (hg : getopt_loop opts Globals.init = some g) (hac : g.action_count ≠ 0)
    (hctx : env.sc_establish_context = 0)
    (hrd : 0 ≤ g.opt_reader ∧ g.opt_reader < env.reader_count)
    (hdet : env.sc_detect_card g.opt_reader = 1)
    (hcon : env.sc_connect_card g.opt_reader = 0) (hbind : env.sc_pkcs15_bind = 0) :
    (env.sc_pkcs15_enum_private_keys ≤ 0 →
      (main env opts).1 = Outcome.exit 1 ∧
      Fn.sc_pkcs15_find_prkey_by_id ∉ calls (main env opts).2) ∧
    (0 < env.sc_pkcs15_enum_private_keys → g.opt_key_id = none →
      Fn.sc_pkcs15_find_prkey_by_id ∉ calls (main env opts).2 ∧
      Event.sc_pkcs15_find_pin_by_auth_id env.prkey_info0.auth_id
        (env.sc_pkcs15_find_pin_by_auth_id env.prkey_info0.auth_id).1 ∈ (main env opts).2 ∧
      ∀ e ∈ (main env opts).2, ∀ k, e.crypto_key = some k → k = env.prkey_info0) ∧
    (0 < env.sc_pkcs15_enum_private_keys → ∀ s, g.opt_key_id = some s →
      Event.sc_pkcs15_find_prkey_by_id (env.sc_pkcs15_hex_string_to_id s)
        (env.sc_pkcs15_find_prkey_by_id (env.sc_pkcs15_hex_string_to_id s)).1
          ∈ (main env opts).2 ∧
      ((env.sc_pkcs15_find_prkey_by_id (env.sc_pkcs15_hex_string_to_id s)).1 < 0 →
        (main env opts).1 = Outcome.exit 2 ∧
        Fn.sc_pkcs15_find_pin_by_auth_id ∉ calls (main env opts).2 ∧
        Fn.sc_pkcs15_verify_pin ∉ calls (main env opts).2 ∧
        ∀ f ∈ calls (main env opts).2, f.is_crypto = false) ∧
      (0 ≤ (env.sc_pkcs15_find_prkey_by_id (env.sc_pkcs15_hex_string_to_id s)).1 →
        Event.sc_pkcs15_find_pin_by_auth_id
          (env.sc_pkcs15_find_prkey_by_id (env.sc_pkcs15_hex_string_to_id s)).2.auth_id
          (env.sc_pkcs15_find_pin_by_auth_id
            (env.sc_pkcs15_find_prkey_by_id (env.sc_pkcs15_hex_string_to_id s)).2.auth_id).1
            ∈ (main env opts).2 ∧
        ∀ e ∈ (main env opts).2, ∀ k, e.crypto_key = some k →
          k = (env.sc_pkcs15_find_prkey_by_id (env.sc_pkcs15_hex_string_to_id s)).2)) := by
  have hm : main env opts = main_run env g := by
    simp [main, hg]
  rw [hm, main_run_bound env g hac hctx hrd hdet hcon hbind]
  have ht : ∀ e ∈ [Event.sc_establish_context 0, Event.sc_detect_card g.opt_reader 1,
      Event.sc_connect_card g.opt_reader 0, Event.sc_pkcs15_bind 0], e.fn.stage < 4 := by
    intro e he
    simp only [List.mem_cons, List.mem_singleton, List.mem_nil_iff, or_false] at he
    rcases he with rfl | rfl | rfl | rfl <;> simp [Event.fn, Fn.stage]
  generalize [Event.sc_establish_context 0, Event.sc_detect_card g.opt_reader 1,
    Event.sc_connect_card g.opt_reader 0, Event.sc_pkcs15_bind 0] = t4 at ht ⊢
  have hkey0 : ∀ e ∈ t4, ∀ k, e.crypto_key = some k → False := by
    intro e he k hk
    have h1 := ht e he
    have h2 := crypto_of_crypto_key e k hk
    omega
  refine ⟨?_, ?_, ?_⟩
  · intro hle
    simp only [main_bound, if_pos hle]
    refine ⟨trivial, not_mem_calls_of_stage _ _ ?_⟩
    intro e he
    simp only [List.mem_append, List.mem_singleton] at he
    rcases he with he | rfl | he
    · have := ht e he
      show e.fn.stage ≠ 6
      omega
    · simp [Event.fn, Fn.stage]
    · have := main_end_release _ _ _ e he
      show e.fn.stage ≠ 6
      omega
  · intro hpos hk
    have hne : ¬ env.sc_pkcs15_enum_private_keys ≤ 0 := by omega
    simp only [main_bound, if_neg hne, hk]
    obtain ⟨⟨rest, hrest⟩, hkeyed⟩ := main_with_key_keyed env g env.prkey_info0
      (t4 ++ [Event.sc_pkcs15_enum_private_keys env.sc_pkcs15_enum_private_keys])
    have hst := main_with_key_stage_ge env g env.prkey_info0
      (t4 ++ [Event.sc_pkcs15_enum_private_keys env.sc_pkcs15_enum_private_keys])
    refine ⟨not_mem_calls_of_stage _ _ ?_, ?_, ?_⟩
    · intro e he
      simp only [List.mem_append, List.mem_singleton] at he
      rcases he with he | rfl | he
      · have := ht e he
        show e.fn.stage ≠ 6
        omega
      · simp [Event.fn, Fn.stage]
      · have := hst e he
        show e.fn.stage ≠ 6
        omega
    · rw [hrest]
      simp
    · intro e he k hk'
      simp only [List.mem_append, List.mem_singleton] at he
      rcases he with he | rfl | he
      · exact absurd (hkey0 e he k hk') id
      · simp [Event.crypto_key] at hk'
      · exact hkeyed e he k hk'
  · intro hpos s hk
    have hne : ¬ env.sc_pkcs15_enum_private_keys ≤ 0 := by omega
    simp only [main_bound, if_neg hne, hk]
    refine ⟨?_, ?_, ?_⟩
    · split_ifs <;> simp
    · intro hneg
      simp only [if_pos hneg]
      refine ⟨trivial, ?_⟩
      have hall : ∀ e ∈ t4 ++
          ([Event.sc_pkcs15_enum_private_keys env.sc_pkcs15_enum_private_keys] ++
            [Event.sc_pkcs15_hex_string_to_id s,
              Event.sc_pkcs15_find_prkey_by_id (env.sc_pkcs15_hex_string_to_id s)
                (env.sc_pkcs15_find_prkey_by_id (env.sc_pkcs15_hex_string_to_id s)).1] ++
            main_end true true true), e.fn.stage < 7 ∨ 11 ≤ e.fn.stage := by
        intro e he
        simp only [List.mem_append, List.mem_singleton, List.mem_cons, List.mem_nil_iff,
          or_false] at he
        rcases he with he | (rfl | rfl | rfl) | he
        · left; have := ht e he; omega
        · simp [Event.fn, Fn.stage]
        · simp [Event.fn, Fn.stage]
        · simp [Event.fn, Fn.stage]
        · right; exact main_end_release _ _ _ e he
      refine ⟨not_mem_calls_of_stage _ _ ?_, not_mem_calls_of_stage _ _ ?_, ?_⟩
      · intro e he
        show e.fn.stage ≠ 7
        rcases hall e he with h | h <;> omega
      · intro e he
        show e.fn.stage ≠ 9
        rcases hall e he with h | h <;> omega
      · intro f hf
        obtain ⟨e, he, rfl⟩ := List.mem_map.1 hf
        cases hc : e.fn.is_crypto
        · rfl
        · have := stage_of_crypto _ hc
          rcases hall e he with h | h <;> omega
    · intro hnn
      have hnn' : ¬ (env.sc_pkcs15_find_prkey_by_id (env.sc_pkcs15_hex_string_to_id s)).1 < 0 := by
        omega
      simp only [if_neg hnn']
      obtain ⟨⟨rest, hrest⟩, hkeyed⟩ := main_with_key_keyed env g
        (env.sc_pkcs15_find_prkey_by_id (env.sc_pkcs15_hex_string_to_id s)).2
        (t4 ++ ([Event.sc_pkcs15_enum_private_keys env.sc_pkcs15_enum_private_keys] ++
            [Event.sc_pkcs15_hex_string_to_id s,
              Event.sc_pkcs15_find_prkey_by_id (env.sc_pkcs15_hex_string_to_id s)
                (env.sc_pkcs15_find_prkey_by_id (env.sc_pkcs15_hex_string_to_id s)).1]))
      refine ⟨?_, ?_⟩
      · rw [hrest]
        simp
      · intro e he k hk'
        simp only [List.mem_append, List.mem_singleton, List.mem_cons, List.mem_nil_iff,
          or_false] at he
        rcases he with he | (rfl | rfl | rfl) | he
        · exact absurd (hkey0 e he k hk') id
        · simp [Event.crypto_key] at hk'
        · simp [Event.crypto_key] at hk'
        · simp [Event.crypto_key] at hk'
        · exact hkeyed e he k hk'

/-- Witness for C5: a key id that the catalog does not hold. -/
theorem main_key_resolution_witness :
    (main env_no_key opts_key).1 = Outcome.exit 2 ∧
    Fn.sc_pkcs15_find_pin_by_auth_id ∉ calls (main env_no_key opts_key).2 ∧
    Fn.sc_pkcs15_verify_pin ∉ calls (main env_no_key opts_key).2 ∧
    ∀ f ∈ calls (main env_no_key opts_key).2, f.is_crypto = false :=
  ((main_key_resolution env_no_key opts_key _ rfl (by decide) rfl ⟨by decide, by decide⟩
    rfl rfl rfl).2.2 (by decide) "45" rfl).2.1 (by decide)

/-- C6: `get_pin` equals the reference definition `get_pin_spec`, for every PIN
object and every sequence of answers: same result, and the `getpass` calls made
are exactly the answers the reference definition asks for (none when a PIN was
supplied). -/
theorem get_pin_refines_spec (env : Env) (g : Globals) (pinfo : sc_pkcs15_pin_info) :
    get_pin env g pinfo =
      ((get_pin_spec g.opt_pincode pinfo env.getpass).1,
        (get_pin_spec g.opt_pincode pinfo env.getpass).2.map
          (Event.getpass (pin_prompt pinfo))) := by
  cases h : g.opt_pincode with
  | some p => simp [get_pin, get_pin_spec, h]
  | none =>
    rw [get_pin, h]
    exact get_pin_loop_eq_spec pinfo env.getpass

/-- Counterexample to C7 as stated: with a 1025-byte input file, `sign` and
`decipher` both call the primitive on the first 1024 bytes and return 0. -/
theorem long_input_is_truncated :
    env_long_input.fopen_r [] "in" = some (List.replicate 1024 7 ++ [8]) ∧
    (List.replicate 1024 7 ++ [8]).length = 1025 ∧
    sign env_long_input globals_in_out env_ok.prkey_info0 [] =
      (0, [Event.fopen_r "in" true,
        Event.sc_pkcs15_compute_signature env_ok.prkey_info0 HashType.SC_PKCS15_HASH_NONE
          (List.replicate 1024 7) 1024 1024 3,
        Event.fopen_w "out" true, Event.fwrite "out" [9, 8, 7]]) ∧
    decipher env_long_input globals_in_out env_ok.prkey_info0 [] =
      (0, [Event.fopen_r "in" true,
        Event.sc_pkcs15_decipher env_ok.prkey_info0 (List.replicate 1024 7) 1024 1024 3,
        Event.fopen_w "out" true, Event.fwrite "out" [1, 2, 3]]) := by
  have htake : (List.replicate 1024 7 ++ [8]).take 1024 = List.replicate 1024 7 :=
    List.take_left' (List.length_replicate _ _)
  have hlen : ((List.replicate 1024 7 : List Nat).length : Int) = 1024 := by
    rw [List.length_replicate]
    rfl
  refine ⟨rfl, ?_, ?_, ?_⟩
  · rw [List.length_append, List.length_replicate]
    rfl
  · rw [sign_on_input env_long_input globals_in_out env_ok.prkey_info0 [] "in" "out"
      (List.replicate 1024 7 ++ [8]) rfl rfl rfl, htake, hlen]
    generalize List.replicate 1024 7 = big
    rfl
  · rw [decipher_on_input env_long_input globals_in_out env_ok.prkey_info0 [] "in"
      (List.replicate 1024 7 ++ [8]) rfl rfl, htake, hlen]
    generalize List.replicate 1024 7 = big
    rfl

/-- C7, as amended: for sign and for decipher, when the input file opens (and,
for sign, an output file is configured), the primitive is called exactly once,
on the first 1024 bytes of the input: an input of at most 1024 bytes is passed
whole, a longer one is cut to its first 1024 bytes.  The length of the input
never makes the operation fail: the status is 1 if the primitive returns a
negative code, and 0 if the primitive succeeds and `write_output` returns 0. -/
theorem sign_decipher_pass_first_1024 (env : Env) (g : Globals) (key : sc_pkcs15_prkey_info)
    (hist : List Event) (inpath : String) (content : List Nat)
    (hin : g.opt_input = some inpath)
    (hread : env.fopen_r hist inpath = some content) :
    (∀ outpath, g.opt_output = some outpath →
      (∃ rest, (sign env g key hist).2 =
          Event.fopen_r inpath true ::
          Event.sc_pkcs15_compute_signature key g.opt_hash_type (content.take 1024)
            ((content.take 1024).length : Int) 1024
            (env.sc_pkcs15_compute_signature key g.opt_hash_type (content.take 1024)
              ((content.take 1024).length : Int)).1 :: rest ∧
        ∀ f ∈ calls rest, f.is_crypto = false) ∧
      ((env.sc_pkcs15_compute_signature key g.opt_hash_type (content.take 1024)
          ((content.take 1024).length : Int)).1 < 0 → (sign env g key hist).1 = 1) ∧
      (0 ≤ (env.sc_pkcs15_compute_signature key g.opt_hash_type (content.take 1024)
          ((content.take 1024).length : Int)).1 →
        (write_output env g
          (env.sc_pkcs15_compute_signature key g.opt_hash_type (content.take 1024)
            ((content.take 1024).length : Int)).2
          (env.sc_pkcs15_compute_signature key g.opt_hash_type (content.take 1024)
            ((content.take 1024).length : Int)).1
          (hist ++ [Event.fopen_r inpath true,
            Event.sc_pkcs15_compute_signature key g.opt_hash_type (content.take 1024)
              ((content.take 1024).length : Int) 1024
              (env.sc_pkcs15_compute_signature key g.opt_hash_type (content.take 1024)
                ((content.take 1024).length : Int)).1])).1 = 0 →
        (sign env g key hist).1 = 0)) ∧
    ((∃ rest, (decipher env g key hist).2 =
          Event.fopen_r inpath true ::
          Event.sc_pkcs15_decipher key (content.take 1024)
            ((content.take 1024).length : Int) 1024
            (env.sc_pkcs15_decipher key (content.take 1024)
              ((content.take 1024).length : Int)).1 :: rest ∧
        ∀ f ∈ calls rest, f.is_crypto = false) ∧
      ((env.sc_pkcs15_decipher key (content.take 1024)
          ((content.take 1024).length : Int)).1 < 0 → (decipher env g key hist).1 = 1) ∧
      (0 ≤ (env.sc_pkcs15_decipher key (content.take 1024)
          ((content.take 1024).length : Int)).1 →
        (write_output env g
          (env.sc_pkcs15_decipher key (content.take 1024)
            ((content.take 1024).length : Int)).2
          (env.sc_pkcs15_decipher key (content.take 1024)
            ((content.take 1024).length : Int)).1
          (hist ++ [Event.fopen_r inpath true,
            Event.sc_pkcs15_decipher key (content.take 1024)
              ((content.take 1024).length : Int) 1024
              (env.sc_pkcs15_decipher key (content.take 1024)
                ((content.take 1024).length : Int)).1])).1 = 0 →
        (decipher env g key hist).1 = 0)) ∧
    (content.length ≤ 1024 → content.take 1024 = content) ∧
    (1024 ≤ content.length → (content.take 1024).length = 1024) := by
  have hw : ∀ buf len h, ∀ f ∈ calls (write_output env g buf len h).2, f.is_crypto = false := by
    intro buf len h f hf
    obtain ⟨e, he, rfl⟩ := List.mem_map.1 hf
    rcases write_output_events env g buf len h e he with h' | h' | h' <;> rw [h'] <;> rfl
  refine ⟨?_, ?_, List.take_of_length_le, ?_⟩
  · intro outpath hout
    rw [sign_on_input env g key hist inpath outpath content hin hout hread]
    split_ifs with hp
    · exact ⟨⟨[], rfl, by simp [calls]⟩, fun _ => rfl, fun h => absurd hp (by omega)⟩
    · exact ⟨⟨_, rfl, hw _ _ _⟩, fun h => absurd h hp, fun _ _ => rfl⟩
  · rw [decipher_on_input env g key hist inpath content hin hread]
    split_ifs with hp
    · exact ⟨⟨[], rfl, by simp [calls]⟩, fun _ => rfl, fun h => absurd hp (by omega)⟩
    · exact ⟨⟨_, rfl, hw _ _ _⟩, fun h => absurd h hp, fun _ _ => rfl⟩
  · intro h
    rw [List.length_take]
    omega

/-- Witness for the amended C7: the 20-byte input of `env_ok`, signed into the
output file, and deciphered to the standard output with no output file. -/
theorem sign_decipher_pass_first_1024_witness :
    (sign env_ok globals_in_out env_ok.prkey_info0 []).1 = 0 ∧
    (decipher env_ok globals_in env_ok.prkey_info0 []).1 = 0 :=
  ⟨((sign_decipher_pass_first_1024 env_ok globals_in_out env_ok.prkey_info0 [] "in"
      (List.replicate 20 7) rfl rfl).1 "out" rfl).2.2 (by decide) rfl,
    (sign_decipher_pass_first_1024 env_ok globals_in env_ok.prkey_info0 [] "in"
      (List.replicate 20 7) rfl rfl).2.1.2.2 (by decide) rfl⟩

/-- C8: the primitive succeeds and the output file cannot be opened.
`write_output` returns -1, and `sign` and `decipher` drop that value and return
0, so `main` exits with status 0. -/
theorem write_failure_returns_zero :
    write_output env_no_write globals_in_out [9, 8, 7] 3 [] =
      (-1, [Event.fopen_w "out" false]) ∧
    sign env_no_write globals_in_out env_ok.prkey_info0 [] =
      (0, [Event.fopen_r "in" true,
        Event.sc_pkcs15_compute_signature env_ok.prkey_info0 HashType.SC_PKCS15_HASH_NONE
          (List.replicate 20 7) 20 1024 3,
        Event.fopen_w "out" false]) ∧
    decipher env_no_write globals_in_out env_ok.prkey_info0 [] =
      (0, [Event.fopen_r "in" true,
        Event.sc_pkcs15_decipher env_ok.prkey_info0 (List.replicate 20 7) 20 1024 3,
        Event.fopen_w "out" false]) ∧
    (main env_no_write opts_sign).1 = Outcome.exit 0 := by
  decide

/-- C9: end-to-end sign.  When every collaborator call succeeds, the card is
present, no key id is given, the supplied PIN verifies, only sign is selected,
the input file opens and holds at most 1024 bytes and the output file opens,
`main` returns 0 and makes exactly the calls listed: one
`sc_pkcs15_compute_signature` call, on the first enumerated key, with the
selected hash type and the whole input, and one binary write to the output file
of the `r` bytes the primitive returned. -/
theorem main_sign_end_to_end (env : Env) (opts : List GetoptResult) (g : Globals)
    (inpath outpath : String) (pincode content : List Nat)
    (hg : getopt_loop opts Globals.init = some g)
    (hsign : g.do_sign ≠ 0) (hdec : g.do_decipher = 0) (hkey : g.opt_key_id = none)
    (hin : g.opt_input = some inpath) (hout : g.opt_output = some outpath)
    (hpin : g.opt_pincode = some pincode)
    (hctx : env.sc_establish_context = 0)
    (hrd : 0 ≤ g.opt_reader ∧ g.opt_reader < env.reader_count)
    (hdet : env.sc_detect_card g.opt_reader = 1)
    (hcon : env.sc_connect_card g.opt_reader = 0) (hbind : env.sc_pkcs15_bind = 0)
    (henum : 0 < env.sc_pkcs15_enum_private_keys)
    (hfp : (env.sc_pkcs15_find_pin_by_auth_id env.prkey_info0.auth_id).1 = 0)
    (hver : env.sc_pkcs15_verify_pin (env.sc_pkcs15_find_pin_by_auth_id env.prkey_info0.auth_id).2
      pincode pincode.length = 0)
    (hread : ∀ hist, env.fopen_r hist inpath = some content) (hlen : content.length ≤ 1024)
    (hprim : 0 ≤ (env.sc_pkcs15_compute_signature env.prkey_info0 g.opt_hash_type content
      (content.length : Int)).1)
    (hwrite : ∀ hist, env.fopen_w hist outpath = true) :
    main env opts =
      (Outcome.exit 0,
        [Event.sc_establish_context 0,
         Event.sc_detect_card g.opt_reader 1,
         Event.sc_connect_card g.opt_reader 0,
         Event.sc_pkcs15_bind 0,
         Event.sc_pkcs15_enum_private_keys env.sc_pkcs15_enum_private_keys,
         Event.sc_pkcs15_find_pin_by_auth_id env.prkey_info0.auth_id 0,
         Event.sc_pkcs15_verify_pin (env.sc_pkcs15_find_pin_by_auth_id env.prkey_info0.auth_id).2
           pincode pincode.length 0,
         Event.fopen_r inpath true,
         Event.sc_pkcs15_compute_signature env.prkey_info0 g.opt_hash_type content
           (content.length : Int) 1024
           (env.sc_pkcs15_compute_signature env.prkey_info0 g.opt_hash_type content
             (content.length : Int)).1,
         Event.fopen_w outpath true,
         Event.fwrite outpath
           ((env.sc_pkcs15_compute_signature env.prkey_info0 g.opt_hash_type content
               (content.length : Int)).2.take
             (env.sc_pkcs15_compute_signature env.prkey_info0 g.opt_hash_type content
               (content.length : Int)).1.toNat),
         Event.sc_pkcs15_unbind,
         Event.sc_disconnect_card,
         Event.sc_destroy_context]) := by
  have hm : main env opts = main_run env g := by
    simp [main, hg]
  have hac : g.action_count ≠ 0 := by
    have := getopt_loop_action_count opts _ _ hg (by simp [Globals.init])
    omega
  have hne : ¬ env.sc_pkcs15_enum_private_keys ≤ 0 := by omega
  have htake : content.take 1024 = content := List.take_of_length_le hlen
  have hprim' : ¬ (env.sc_pkcs15_compute_signature env.prkey_info0 g.opt_hash_type content
      (content.length : Int)).1 < 0 := by omega
  rw [hm, main_run_bound env g hac hctx hrd hdet hcon hbind]
  simp only [main_bound, if_neg hne, hkey]
  simp only [main_with_key, hfp, get_pin, hpin, hver]
  simp only [main_ops, hdec, main_sign_stage]
  simp only [sign_on_input env g env.prkey_info0 _ inpath outpath content hin hout (hread _),
    htake, if_neg hprim', write_output, hout, hwrite]
  simp [hsign, main_end]

/-- Witness for C9: `env_ok` with sign alone, a 20-byte input and a supplied
PIN. -/
theorem main_sign_end_to_end_witness :
    main env_ok opts_sign =
      (Outcome.exit 0,
        [Event.sc_establish_context 0,
         Event.sc_detect_card 0 1,
         Event.sc_connect_card 0 0,
         Event.sc_pkcs15_bind 0,
         Event.sc_pkcs15_enum_private_keys 1,
         Event.sc_pkcs15_find_pin_by_auth_id [2] 0,
         Event.sc_pkcs15_verify_pin ⟨"pin", 4, 8⟩ [49, 50] 2 0,
         Event.fopen_r "in" true,
         Event.sc_pkcs15_compute_signature ⟨[1], [2]⟩ HashType.SC_PKCS15_HASH_NONE
           (List.replicate 20 7) 20 1024 3,
         Event.fopen_w "out" true,
         Event.fwrite "out" [9, 8, 7],
         Event.sc_pkcs15_unbind,
         Event.sc_disconnect_card,
         Event.sc_destroy_context]) :=
  main_sign_end_to_end env_ok opts_sign _ "in" "out" [49, 50] (List.replicate 20 7) rfl
    (by decide) rfl rfl rfl rfl rfl rfl ⟨by decide, by decide⟩ rfl rfl rfl (by decide) rfl rfl
    (fun _ => rfl) (by decide) (by decide) (fun _ => rfl)

/-- C10: in an authorized run (the verification call returned 0) with both the
sign and the decipher option set, `decipher` runs first, on the calls made up to
the verification; if it returns non-zero that is the exit status and `sign` does
not run; if it returns 0, `sign` runs next and its status is the exit status.
Either way the three releases follow. -/
theorem main_both_decipher_then_sign (env : Env) (opts : List GetoptResult) (g : Globals)
    (hg : getopt_loop opts Globals.init = some g)
    (hs : g.do_sign ≠ 0) (hd : g.do_decipher ≠ 0)
    (pin : sc_pkcs15_pin_info) (code : List Nat) (len : Nat)
    (hv : Event.sc_pkcs15_verify_pin pin code len 0 ∈ (main env opts).2) :
    ∃ key A, (∀ e ∈ A, e.fn.stage < 9) ∧
      main env opts =
        if (decipher env g key (A ++ [Event.sc_pkcs15_verify_pin pin code len 0])).1 ≠ 0 then
          (Outcome.exit (decipher env g key (A ++ [Event.sc_pkcs15_verify_pin pin code len 0])).1,
            A ++ [Event.sc_pkcs15_verify_pin pin code len 0] ++
              (decipher env g key (A ++ [Event.sc_pkcs15_verify_pin pin code len 0])).2 ++
              main_end true true true)
        else
          (Outcome.exit (sign env g key (A ++ [Event.sc_pkcs15_verify_pin pin code len 0] ++
              (decipher env g key (A ++ [Event.sc_pkcs15_verify_pin pin code len 0])).2)).1,
            A ++ [Event.sc_pkcs15_verify_pin pin code len 0] ++
              (decipher env g key (A ++ [Event.sc_pkcs15_verify_pin pin code len 0])).2 ++
              (sign env g key (A ++ [Event.sc_pkcs15_verify_pin pin code len 0] ++
                (decipher env g key (A ++ [Event.sc_pkcs15_verify_pin pin code len 0])).2)).2 ++
              main_end true true true) := by
  rcases main_shape env opts with ⟨hev, _, _⟩ |
    ⟨g', A, pin', code', hg', hA, hAg, hgpin, ⟨hv', heq⟩ | ⟨hv', key, heq⟩⟩
  · rcases hev _ hv with h | h <;> simp [Event.fn, Fn.stage] at h
  · exfalso
    obtain ⟨-, huniq, -⟩ := verify_unique A (main_end true true true)
      (Event.sc_pkcs15_verify_pin pin' code' code'.length
        (env.sc_pkcs15_verify_pin pin' code' code'.length)) rfl hA (main_end_stage_ge _ _ _)
    rw [heq] at hv
    have := huniq _ hv rfl
    injection this with h1 h2 h3 h4
    exact hv' h4.symm
  · have hgg : g' = g := by
      rw [hg] at hg'
      injection hg' with h
      exact h.symm
    subst hgg
    obtain ⟨-, huniq, -⟩ := verify_unique A _
      (Event.sc_pkcs15_verify_pin pin' code' code'.length 0) rfl hA
      (main_ops_stage_ge env g' key (A ++ [Event.sc_pkcs15_verify_pin pin' code' code'.length 0]))
    have hv2 := hv
    rw [heq] at hv2
    have := huniq _ hv2 rfl
    injection this with h1 h2 h3 h4
    subst h1 h2 h3
    refine ⟨key, A, hA, ?_⟩
    rw [heq]
    simp only [main_ops, main_sign_stage, if_pos hd, if_pos hs]
    split_ifs <;> simp_all

/-- Witness for C10: `env_ok` with sign and decipher together. -/
theorem main_both_decipher_then_sign_witness :
    Event.sc_pkcs15_verify_pin ⟨"pin", 4, 8⟩ [49, 50] 2 0 ∈ (main env_ok opts_both).2 ∧
    ∃ key A, (∀ e ∈ A, e.fn.stage < 9) ∧
      main env_ok opts_both =
        if (decipher env_ok globals_both key
            (A ++ [Event.sc_pkcs15_verify_pin ⟨"pin", 4, 8⟩ [49, 50] 2 0])).1 ≠ 0 then
          (Outcome.exit (decipher env_ok globals_both key
              (A ++ [Event.sc_pkcs15_verify_pin ⟨"pin", 4, 8⟩ [49, 50] 2 0])).1,
            A ++ [Event.sc_pkcs15_verify_pin ⟨"pin", 4, 8⟩ [49, 50] 2 0] ++
              (decipher env_ok globals_both key
                (A ++ [Event.sc_pkcs15_verify_pin ⟨"pin", 4, 8⟩ [49, 50] 2 0])).2 ++
              main_end true true true)
        else
          (Outcome.exit (sign env_ok globals_both key
              (A ++ [Event.sc_pkcs15_verify_pin ⟨"pin", 4, 8⟩ [49, 50] 2 0] ++
                (decipher env_ok globals_both key
                  (A ++ [Event.sc_pkcs15_verify_pin ⟨"pin", 4, 8⟩ [49, 50] 2 0])).2)).1,
            A ++ [Event.sc_pkcs15_verify_pin ⟨"pin", 4, 8⟩ [49, 50] 2 0] ++
              (decipher env_ok globals_both key
                (A ++ [Event.sc_pkcs15_verify_pin ⟨"pin", 4, 8⟩ [49, 50] 2 0])).2 ++
              (sign env_ok globals_both key
                (A ++ [Event.sc_pkcs15_verify_pin ⟨"pin", 4, 8⟩ [49, 50] 2 0] ++
                  (decipher env_ok globals_both key
                    (A ++ [Event.sc_pkcs15_verify_pin ⟨"pin", 4, 8⟩ [49, 50] 2 0])).2)).2 ++
              main_end true true true) :=
  ⟨by decide,
    main_both_decipher_then_sign env_ok opts_both globals_both rfl (by decide) (by decide)
      ⟨"pin", 4, 8⟩ [49, 50] 2 (by decide)⟩

end Pkcs15Crypt
